import Mathlib

set_option autoImplicit false

/-!
Verification development for the amazon-tradebyte-exporter pipeline
(src/main.py): a shallow embedding of the record parser, the fixed MongoDB
query filter, the channel/order grouping of `run`, and the XML report
generator `generate_amazon_xml`, together with theorems about the
pipeline's documented properties.
-/

namespace AmazonExporter

/-- Naive datetime value as produced by Python's `datetime` constructor and
`datetime.fromisoformat` (year, month, day, hour, minute, second);
microseconds are zero in the fixed query bounds and are not modelled. -/
structure PyDatetime where
  year : Nat
  month : Nat
  day : Nat
  hour : Nat
  minute : Nat
  second : Nat
deriving DecidableEq, Repr

/-- Chronological strict order on datetimes: lexicographic on the
components, as Python datetime comparison behaves. -/
def PyDatetime.ltb (a b : PyDatetime) : Bool :=
  if a.year ≠ b.year then decide (a.year < b.year)
  else if a.month ≠ b.month then decide (a.month < b.month)
  else if a.day ≠ b.day then decide (a.day < b.day)
  else if a.hour ≠ b.hour then decide (a.hour < b.hour)
  else if a.minute ≠ b.minute then decide (a.minute < b.minute)
  else decide (a.second < b.second)

/-- Two-digit zero padding, for the str() rendering of datetimes. -/
def pad2 (n : Nat) : String :=
  if n < 10 then "0" ++ toString n else toString n

/-- Value stored in a record field: every field read from the tab-delimited
file is a string; the derived `order_date` field added by
`parse_txt_to_objects` holds a parsed datetime. -/
inductive FieldVal where
  | str (s : String)
  | dt (d : PyDatetime)
deriving DecidableEq, Repr

/-- Python `str()` view of a field value: identity on strings, the
`YYYY-MM-DD HH:MM:SS` rendering on datetimes.  All fields that the XML
generator reads are strings in practice, where this is the identity. -/
def FieldVal.pyStr : FieldVal → String
  | .str s => s
  | .dt d =>
      toString d.year ++ "-" ++ pad2 d.month ++ "-" ++ pad2 d.day ++ " " ++
        pad2 d.hour ++ ":" ++ pad2 d.minute ++ ":" ++ pad2 d.second

/-- A record (one parsed row / one MongoDB document): a Python dict from
field name to value, modelled as an association list with keys in insertion
order. -/
abbrev Rec := List (String × FieldVal)

/-- Dictionary lookup without exception (Python `d.get(k)`). -/
def getField (r : Rec) (k : String) : Option FieldVal :=
  (r.find? (fun p => decide (p.1 = k))).map Prod.snd

/-- Python exceptions that the embedded code can raise. -/
inductive PyErr where
  | keyError (k : String)
  | indexError
  | valueError (s : String)
deriving DecidableEq, Repr

/-- Python subscription `d[k]`: raises KeyError when the key is absent. -/
def dictGet (r : Rec) (k : String) : Except PyErr FieldVal :=
  match getField r k with
  | some v => Except.ok v
  | none => Except.error (PyErr.keyError k)

/-- Python dict assignment `d[k] = v`: overwrite in place when the key
exists (keeping its position), otherwise append the new key at the end. -/
def dictSet (r : Rec) (k : String) (v : FieldVal) : Rec :=
  match r with
  | [] => [(k, v)]
  | p :: rest => if p.1 = k then (k, v) :: rest else p :: dictSet rest k v

/-- One row of `csv.DictReader` on a well-formed data row (as many values
as header names): pair each header name with the row's string value. -/
def rowToDict (header : List String) (row : List String) : Rec :=
  (header.zip row).map (fun p => (p.1, FieldVal.str p.2))

/-- Loop body of `parse_txt_to_objects`: look up the row's
`purchase-date`, parse it with `datetime.fromisoformat` (an external
collaborator, passed in as `fromiso`; `none` models its ValueError), and
store the parsed value under `order_date`. -/
def parseRow (fromiso : String → Option PyDatetime) (header : List String)
    (row : List String) : Except PyErr Rec :=
  match getField (rowToDict header row) "purchase-date" with
  | none => Except.error (PyErr.keyError "purchase-date")
  | some v =>
    match fromiso v.pyStr with
    | none => Except.error (PyErr.valueError v.pyStr)
    | some dt =>
        Except.ok (dictSet (rowToDict header row) "order_date" (FieldVal.dt dt))

/-- The parser `parse_txt_to_objects`: one record per data row, in row
order; the first failing row aborts the whole file. -/
def parse_txt_to_objects (fromiso : String → Option PyDatetime)
    (header : List String) : List (List String) → Except PyErr (List Rec)
  | [] => Except.ok []
  | row :: rest =>
    match parseRow fromiso header row with
    | Except.error e => Except.error e
    | Except.ok r =>
      match parse_txt_to_objects fromiso header rest with
      | Except.error e => Except.error e
      | Except.ok rs => Except.ok (r :: rs)

/-- One MongoDB filter condition as used by `query_mongodb`: either a
range document with `$gt` and `$lt` bounds, or equality with a string. -/
inductive BsonCond where
  | range (g l : PyDatetime)
  | eqStr (s : String)
deriving DecidableEq, Repr

/-- Does a document satisfy one filter condition on one field?  A range
condition with `$gt`/`$lt` datetime bounds matches only datetime values
strictly inside the bounds (BSON values of other types never match a
datetime range); string equality matches only an equal string value. -/
def condMatches (r : Rec) (field : String) (c : BsonCond) : Bool :=
  match c, getField r field with
  | .range g l, some (.dt d) => PyDatetime.ltb g d && PyDatetime.ltb d l
  | .range _ _, _ => false
  | .eqStr s, some (.str v) => decide (v = s)
  | .eqStr _, _ => false

/-- Start bound of the fixed query: `datetime(2024, 12, 23, 13, 45, 0)`. -/
def startDate : PyDatetime := ⟨2024, 12, 23, 13, 45, 0⟩

/-- End bound of the fixed query: `datetime(2025, 1, 2, 17, 15, 0)`. -/
def endDate : PyDatetime := ⟨2025, 1, 2, 17, 15, 0⟩

/-- MongoDB `find`: return the documents matching every condition of the
query, in collection order. -/
def mongoFind (q : List (String × BsonCond)) (docs : List Rec) : List Rec :=
  docs.filter (fun r => q.all (fun p => condMatches r p.1 p.2))

/-- The fixed query of `query_mongodb`: `order_date` between the two fixed
instants (via `$gt` / `$lt`) and `is-buyer-requested-cancellation` equal to
the string "false". -/
def query_mongodb (docs : List Rec) : List Rec :=
  mongoFind [("order_date", BsonCond.range startDate endDate),
             ("is-buyer-requested-cancellation", BsonCond.eqStr "false")] docs

/-- Append a record under a key, as the dict-of-list accumulation in `run`
does: an existing key keeps its position and gets the record appended to
its list; a new key is added at the end (Python dict insertion order). -/
def insertAppend (m : List (FieldVal × List Rec)) (k : FieldVal) (r : Rec) :
    List (FieldVal × List Rec) :=
  match m with
  | [] => [(k, [r])]
  | p :: rest => if p.1 = k then (p.1, p.2 ++ [r]) :: rest
                 else p :: insertAppend rest k r

/-- Single grouping pass of `run` over the records, accumulating into a
dict keyed by the value of `field`; a record without the field raises
KeyError and aborts the pass. -/
def groupByFieldAux (field : String) (acc : List (FieldVal × List Rec)) :
    List Rec → Except PyErr (List (FieldVal × List Rec))
  | [] => Except.ok acc
  | r :: rest =>
    match dictGet r field with
    | Except.error e => Except.error e
    | Except.ok k => groupByFieldAux field (insertAppend acc k r) rest

/-- Group a record list by the value of one field, starting from the empty
dict, as both grouping loops of `run` do (`collection_per_channel` with
`sales-channel`, `order_grouped_with_order_lines` with `order-id`; the
latter's singleton wrapper dict holding only the key "orders" is modelled
away, keeping the line list itself as the dict value). -/
def groupByField (field : String) (l : List Rec) :
    Except PyErr (List (FieldVal × List Rec)) :=
  groupByFieldAux field [] l

/-- Inner loop of `run`: group each channel's records by `order-id`,
channel by channel in channel order. -/
def groupOrdersPerChannel : List (FieldVal × List Rec) →
    Except PyErr (List (FieldVal × List (FieldVal × List Rec)))
  | [] => Except.ok []
  | p :: rest =>
    match groupByField "order-id" p.2 with
    | Except.error e => Except.error e
    | Except.ok om =>
      match groupOrdersPerChannel rest with
      | Except.error e => Except.error e
      | Except.ok g => Except.ok ((p.1, om) :: g)

/-- Grouping stage of `run` (lines 255-272): partition the queried records
by `sales-channel`, then each channel's records by `order-id`. -/
def group_run (l : List Rec) :
    Except PyErr (List (FieldVal × List (FieldVal × List Rec))) :=
  match groupByField "sales-channel" l with
  | Except.error e => Except.error e
  | Except.ok cm => groupOrdersPerChannel cm

/-- An ElementTree element: tag, attributes in insertion order, optional
text content, children in creation order. -/
inductive Xml where
  | elem (tag : String) (attrs : List (String × String)) (text : Option String)
      (children : List Xml)
deriving Repr

/-- Tag of an element. -/
def Xml.tag : Xml → String
  | .elem t _ _ _ => t

/-- Attribute list of an element. -/
def Xml.attrs : Xml → List (String × String)
  | .elem _ a _ _ => a

/-- Text content of an element. -/
def Xml.text : Xml → Option String
  | .elem _ _ tx _ => tx

/-- Children of an element. -/
def Xml.children : Xml → List Xml
  | .elem _ _ _ cs => cs

/-- First child with a given tag. -/
def childByTag (x : Xml) (t : String) : Option Xml :=
  x.children.find? (fun c => decide (c.tag = t))

/-- Text of the first child with a given tag. -/
def textOfChild (x : Xml) (t : String) : Option String :=
  (childByTag x t).bind Xml.text

/-- Python `d.get(k, default)` used for text content: a present value is
used as-is (all such fields are strings), an absent key gives the
default. -/
def getTextD (r : Rec) (k : String) (dflt : String) : String :=
  match getField r k with
  | some v => v.pyStr
  | none => dflt

/-- ASCII model of Python `str.lower`. -/
def pyLower (s : String) : String := s.map Char.toLower

/-- Text produced by `str(order.get(k, False)).lower()`: an absent flag
renders as "false" (`str(False).lower()`), a present value is rendered by
`str()` and lowercased. -/
def flagText (r : Rec) (k : String) : String :=
  match getField r k with
  | some v => pyLower v.pyStr
  | none => "false"

/-- Pure tree construction for one Item element of `generate_amazon_xml`
(lines 187-221), after all field lookups have succeeded.  Each component's
currency attribute is passed separately because the source looks the
`currency` field up once per Amount. -/
def buildItem (oic sku title qty principal cur1 shipping cur2 tax cur3
    shippingTax cur4 fee cur5 : String) : Xml :=
  Xml.elem "Item" [] none [
    Xml.elem "AmazonOrderItemCode" [] (some oic) [],
    Xml.elem "SKU" [] (some sku) [],
    Xml.elem "Title" [] (some title) [],
    Xml.elem "Quantity" [] (some qty) [],
    Xml.elem "ProductTaxCode" [] (some "A_GEN_STANDARD") [],
    Xml.elem "ItemPrice" [] none [
      Xml.elem "Component" [] none [
        Xml.elem "Type" [] (some "Principal") [],
        Xml.elem "Amount" [("currency", cur1)] (some principal) []],
      Xml.elem "Component" [] none [
        Xml.elem "Type" [] (some "Shipping") [],
        Xml.elem "Amount" [("currency", cur2)] (some shipping) []],
      Xml.elem "Component" [] none [
        Xml.elem "Type" [] (some "Tax") [],
        Xml.elem "Amount" [("currency", cur3)] (some tax) []],
      Xml.elem "Component" [] none [
        Xml.elem "Type" [] (some "ShippingTax") [],
        Xml.elem "Amount" [("currency", cur4)] (some shippingTax) []]],
    Xml.elem "ItemFees" [] none [
      Xml.elem "Fee" [] none [
        Xml.elem "Type" [] (some "Commission") [],
        Xml.elem "Amount" [("currency", cur5)] (some fee) []]]]

/-- Item loop body of `generate_amazon_xml`: look the line's fields up (in
the source's evaluation order, the assigned value before the attribute
dict of the same statement) and build the Item element; a missing field
raises KeyError. -/
def itemElement (item : Rec) : Except PyErr Xml := do
  let oic ← dictGet item "order-item-id"
  let sku ← dictGet item "sku"
  let title ← dictGet item "product-name"
  let qty ← dictGet item "quantity-purchased"
  let principal ← dictGet item "item-price"
  let cur1 ← dictGet item "currency"
  let shipping ← dictGet item "shipping-price"
  let cur2 ← dictGet item "currency"
  let tax ← dictGet item "item-tax"
  let cur3 ← dictGet item "currency"
  let shippingTax ← dictGet item "shipping-tax"
  let cur4 ← dictGet item "currency"
  let fee ← dictGet item "payment-method-fee"
  let cur5 ← dictGet item "currency"
  Except.ok (buildItem oic.pyStr sku.pyStr title.pyStr qty.pyStr
    principal.pyStr cur1.pyStr shipping.pyStr cur2.pyStr tax.pyStr cur3.pyStr
    shippingTax.pyStr cur4.pyStr fee.pyStr cur5.pyStr)

/-- The `for item in orders[order_id]["orders"]` loop: build one Item per
line, in line order; the first failing line aborts. -/
def itemList : List Rec → Except PyErr (List Xml)
  | [] => Except.ok []
  | item :: rest =>
    match itemElement item with
    | Except.error e => Except.error e
    | Except.ok x =>
      match itemList rest with
      | Except.error e => Except.error e
      | Except.ok xs => Except.ok (x :: xs)

/-- Order-level field values read from the order's first line, all as the
strings assigned to text content. -/
structure OrderFields where
  purchaseDate : String
  paymentsDate : String
  buyerEmail : String
  buyerName : String
  buyerPhone : String
  billName : String
  billA1 : String
  billA2 : String
  billA3 : String
  billCity : String
  billState : String
  billPostal : String
  billCountry : String
  shipServiceLevel : String
  recipientName : String
  shipA1 : String
  shipA2 : String
  shipA3 : String
  shipCity : String
  shipState : String
  shipPostal : String
  shipCountry : String
  shipPhone : String
  isBusiness : String
  isPrime : String
  isPremium : String
  isIba : String
deriving Repr

/-- Pure tree construction for one Message element (lines 139-221), after
all lookups have succeeded. -/
def buildMessage (message_id : Nat) (order_id : String) (session_id : String)
    (f : OrderFields) (items : List Xml) : Xml :=
  Xml.elem "Message" [] none [
    Xml.elem "MessageID" [] (some (toString message_id)) [],
    Xml.elem "OrderReport" [] none ([
      Xml.elem "AmazonOrderID" [] (some order_id) [],
      Xml.elem "AmazonSessionID" [] (some session_id) [],
      Xml.elem "OrderDate" [] (some f.purchaseDate) [],
      Xml.elem "OrderPostedDate" [] (some f.paymentsDate) [],
      Xml.elem "BillingData" [] none [
        Xml.elem "BuyerEmailAddress" [] (some f.buyerEmail) [],
        Xml.elem "BuyerName" [] (some f.buyerName) [],
        Xml.elem "BuyerPhoneNumber" [] (some f.buyerPhone) [],
        Xml.elem "Address" [] none [
          Xml.elem "Name" [] (some f.billName) [],
          Xml.elem "AddressFieldOne" [] (some f.billA1) [],
          Xml.elem "AddressFieldTwo" [] (some f.billA2) [],
          Xml.elem "AddressFieldThree" [] (some f.billA3) [],
          Xml.elem "City" [] (some f.billCity) [],
          Xml.elem "StateOrRegion" [] (some f.billState) [],
          Xml.elem "PostalCode" [] (some f.billPostal) [],
          Xml.elem "CountryCode" [] (some f.billCountry) []]],
      Xml.elem "FulfillmentData" [] none [
        Xml.elem "FulfillmentMethod" [] (some "Ship") [],
        Xml.elem "FulfillmentServiceLevel" [] (some f.shipServiceLevel) [],
        Xml.elem "Address" [] none [
          Xml.elem "Name" [] (some f.recipientName) [],
          Xml.elem "AddressFieldOne" [] (some f.shipA1) [],
          Xml.elem "AddressFieldTwo" [] (some f.shipA2) [],
          Xml.elem "AddressFieldThree" [] (some f.shipA3) [],
          Xml.elem "City" [] (some f.shipCity) [],
          Xml.elem "StateOrRegion" [] (some f.shipState) [],
          Xml.elem "PostalCode" [] (some f.shipPostal) [],
          Xml.elem "CountryCode" [] (some f.shipCountry) [],
          Xml.elem "PhoneNumber" [] (some f.shipPhone) []]],
      Xml.elem "IsBusinessOrder" [] (some f.isBusiness) [],
      Xml.elem "IsPrime" [] (some f.isPrime) [],
      Xml.elem "IsPremiumOrder" [] (some f.isPremium) [],
      Xml.elem "IsIba" [] (some f.isIba) []] ++ items)]

/-- Python `lst[0]`: raises IndexError on an empty list. -/
def headE (lines : List Rec) : Except PyErr Rec :=
  match lines.head? with
  | none => Except.error PyErr.indexError
  | some r => Except.ok r

/-- Order-level field lookups of `generate_amazon_xml` on the order's
first line, in the source's statement order: required fields by
subscription (KeyError when absent), the phone fields by `.get(k, "")`,
the boolean flags by `str(order.get(k, False)).lower()`. -/
def fieldsOf (order : Rec) : Except PyErr OrderFields := do
  let purchaseDate ← dictGet order "purchase-date"
  let paymentsDate ← dictGet order "payments-date"
  let buyerEmail ← dictGet order "buyer-email"
  let buyerName ← dictGet order "buyer-name"
  let billName ← dictGet order "bill-name"
  let billA1 ← dictGet order "bill-address-1"
  let billA2 ← dictGet order "bill-address-2"
  let billA3 ← dictGet order "bill-address-3"
  let billCity ← dictGet order "bill-city"
  let billState ← dictGet order "bill-state"
  let billPostal ← dictGet order "bill-postal-code"
  let billCountry ← dictGet order "bill-country"
  let shipServiceLevel ← dictGet order "ship-service-level"
  let recipientName ← dictGet order "recipient-name"
  let shipA1 ← dictGet order "ship-address-1"
  let shipA2 ← dictGet order "ship-address-2"
  let shipA3 ← dictGet order "ship-address-3"
  let shipCity ← dictGet order "ship-city"
  let shipState ← dictGet order "ship-state"
  let shipPostal ← dictGet order "ship-postal-code"
  let shipCountry ← dictGet order "ship-country"
  Except.ok
    { purchaseDate := purchaseDate.pyStr
      paymentsDate := paymentsDate.pyStr
      buyerEmail := buyerEmail.pyStr
      buyerName := buyerName.pyStr
      buyerPhone := getTextD order "buyer-phone-number" ""
      billName := billName.pyStr
      billA1 := billA1.pyStr
      billA2 := billA2.pyStr
      billA3 := billA3.pyStr
      billCity := billCity.pyStr
      billState := billState.pyStr
      billPostal := billPostal.pyStr
      billCountry := billCountry.pyStr
      shipServiceLevel := shipServiceLevel.pyStr
      recipientName := recipientName.pyStr
      shipA1 := shipA1.pyStr
      shipA2 := shipA2.pyStr
      shipA3 := shipA3.pyStr
      shipCity := shipCity.pyStr
      shipState := shipState.pyStr
      shipPostal := shipPostal.pyStr
      shipCountry := shipCountry.pyStr
      shipPhone := getTextD order "ship-phone-number" ""
      isBusiness := flagText order "is-business-order"
      isPrime := flagText order "is-prime"
      isPremium := flagText order "is-premium-order"
      isIba := flagText order "is-iba" }

/-- Message loop body of `generate_amazon_xml` for one order: read the
order-level fields from the first line (a missing required field raises
KeyError, optional fields fall back to their defaults), build the items,
and assemble the Message element.  `order_id` is the grouping key;
`session_id` is the `str(uuid.uuid4())` value drawn for this message. -/
def messageElement (message_id : Nat) (order_id : FieldVal)
    (session_id : String) (lines : List Rec) : Except PyErr Xml := do
  let order ← headE lines
  let f ← fieldsOf order
  let items ← itemList lines
  Except.ok (buildMessage message_id order_id.pyStr session_id f items)

/-- The `for message_id, order_id in enumerate(orders, start=1)` loop:
build one Message per grouped order, numbering from `i`; `sids i` is the
fresh session id drawn for message number `i`. -/
def generateMessages (sids : Nat → String) :
    Nat → List (FieldVal × List Rec) → Except PyErr (List Xml)
  | _, [] => Except.ok []
  | i, p :: rest =>
    match messageElement i p.1 (sids i) p.2 with
    | Except.error e => Except.error e
    | Except.ok m =>
      match generateMessages sids (i + 1) rest with
      | Except.error e => Except.error e
      | Except.ok ms => Except.ok (m :: ms)

/-- Default merchant id of `generate_amazon_xml`. -/
def default_merchant_id : String := "A2DKZN1W9ZO5KL"

/-- Pure envelope construction: the root with its fixed attributes, the
header with document version and merchant id, the message type, then the
message list. -/
def buildEnvelope (merchant_id : String) (msgs : List Xml) : Xml :=
  Xml.elem "AmazonEnvelope"
    [("xmlns:xsi", "http://www.w3.org/2001/XMLSchema-instance"),
     ("xsi:noNamespaceSchemaLocation", "amzn-envelope.xsd")] none
    ([Xml.elem "Header" [] none [
        Xml.elem "DocumentVersion" [] (some "1.01") [],
        Xml.elem "MerchantIdentifier" [] (some merchant_id) []],
      Xml.elem "MessageType" [] (some "OrderReport") []] ++ msgs)

/-- The generator `generate_amazon_xml`: one Message per grouped order in
dict iteration order, wrapped in the fixed envelope. -/
def generate_amazon_xml (orders : List (FieldVal × List Rec))
    (merchant_id : String) (sids : Nat → String) : Except PyErr Xml :=
  match generateMessages sids 1 orders with
  | Except.error e => Except.error e
  | Except.ok msgs => Except.ok (buildEnvelope merchant_id msgs)

/-- Escaping of text content, as ElementTree does it: ampersand first,
then angle brackets. -/
def escapeCdata (s : String) : String :=
  ((s.replace "&" "&amp;").replace "<" "&lt;").replace ">" "&gt;"

/-- Escaping of attribute values, as ElementTree does it. -/
def escapeAttrib (s : String) : String :=
  (((((s.replace "&" "&amp;").replace "<" "&lt;").replace ">" "&gt;").replace
    "\x22" "&quot;").replace "\x0d" "&#13;").replace "\x0a" "&#10;"

mutual

/-- Compact serialization of one element, as `ET.tostring` emits it: the
short form for an element with neither (non-empty) text nor children,
otherwise an open tag, escaped text, children, close tag. -/
def xmlSerialize : Xml → String
  | .elem t attrs tx cs =>
    let attrStr := String.join (attrs.map (fun p =>
      " " ++ p.1 ++ "=\x22" ++ escapeAttrib p.2 ++ "\x22"))
    let hasText : Bool := match tx with
      | some s => decide (s ≠ "")
      | none => false
    let txt := match tx with
      | some s => if s = "" then "" else escapeCdata s
      | none => ""
    if hasText || !cs.isEmpty then
      "<" ++ t ++ attrStr ++ ">" ++ txt ++ xmlSerializeList cs ++
        "</" ++ t ++ ">"
    else
      "<" ++ t ++ attrStr ++ " />"

/-- Serialization of a child list, in order. -/
def xmlSerializeList : List Xml → String
  | [] => ""
  | c :: cs => xmlSerialize c ++ xmlSerializeList cs

end

/-- The byte output of `ET.tostring(root, encoding="utf-8")`: the XML
declaration, then the compact serialization of the tree. -/
def tostring (x : Xml) : String :=
  "<?xml version=\x271.0\x27 encoding=\x27utf-8\x27?>\x0a" ++ xmlSerialize x

mutual

/-- Erase every AmazonSessionID text in a tree, leaving everything else
untouched; this is "excluding the session ids from the comparison". -/
def eraseSession : Xml → Xml
  | .elem t attrs tx cs =>
    Xml.elem t attrs (if t = "AmazonSessionID" then none else tx)
      (eraseSessionList cs)

/-- Erase AmazonSessionID texts in each tree of a list. -/
def eraseSessionList : List Xml → List Xml
  | [] => []
  | c :: cs => eraseSession c :: eraseSessionList cs

end

/-- Association-list lookup, specifying Python dict lookup on the grouped
structures (whose keys are distinct). -/
def alookup {α : Type} (m : List (FieldVal × α)) (k : FieldVal) : Option α :=
  (m.find? (fun p => decide (p.1 = k))).map Prod.snd

/-- Total number of records held by a grouped dict. -/
def listTotal {α : Type} (m : List (FieldVal × List α)) : Nat :=
  (m.map (fun p => p.2.length)).sum

/-- First-seen deduplication: keep the first occurrence of each key, in
order of first appearance, skipping keys already in `seen`.  This is the
iteration order of a Python dict built by first-seen insertion. -/
def dedupFS (seen : List FieldVal) : List FieldVal → List FieldVal
  | [] => []
  | k :: ks => if k ∈ seen then dedupFS seen ks else k :: dedupFS (k :: seen) ks

/-- Modelled from the claim's words, for comparison with the code's filter:
a date range on `order_date` with the start instant INCLUDED and the end
instant excluded, plus the cancellation-flag equality. -/
def c3ClaimFilter (r : Rec) : Bool :=
  (match getField r "order_date" with
   | some (.dt d) =>
       (decide (d = startDate) || PyDatetime.ltb startDate d) &&
         PyDatetime.ltb d endDate
   | _ => false) &&
  decide (getField r "is-buyer-requested-cancellation" =
    some (FieldVal.str "false"))

/-- Concrete order-level and line-level fields shared by the sample
records used to evaluate the theorems on closed inputs. -/
def commonFields : Rec :=
  [("purchase-date", FieldVal.str "2024-12-25T10:00:00"),
   ("payments-date", FieldVal.str "2024-12-26T10:00:00"),
   ("buyer-email", FieldVal.str "b@x.com"),
   ("buyer-name", FieldVal.str "Buyer"),
   ("bill-name", FieldVal.str "Bill"),
   ("bill-address-1", FieldVal.str "A1"),
   ("bill-address-2", FieldVal.str "A2"),
   ("bill-address-3", FieldVal.str "A3"),
   ("bill-city", FieldVal.str "City"),
   ("bill-state", FieldVal.str "St"),
   ("bill-postal-code", FieldVal.str "12345"),
   ("bill-country", FieldVal.str "DE"),
   ("ship-service-level", FieldVal.str "Std"),
   ("recipient-name", FieldVal.str "Rcpt"),
   ("ship-address-1", FieldVal.str "S1"),
   ("ship-address-2", FieldVal.str "S2"),
   ("ship-address-3", FieldVal.str "S3"),
   ("ship-city", FieldVal.str "SCity"),
   ("ship-state", FieldVal.str "SSt"),
   ("ship-postal-code", FieldVal.str "54321"),
   ("ship-country", FieldVal.str "DE"),
   ("order-item-id", FieldVal.str "OI1"),
   ("sku", FieldVal.str "SKU1"),
   ("product-name", FieldVal.str "Prod"),
   ("quantity-purchased", FieldVal.str "2"),
   ("currency", FieldVal.str "EUR"),
   ("item-price", FieldVal.str "19.99"),
   ("shipping-price", FieldVal.str "3.99"),
   ("item-tax", FieldVal.str "1.99"),
   ("shipping-tax", FieldVal.str "0.50"),
   ("payment-method-fee", FieldVal.str "0.30")]

/-- A complete sample record with the given channel and order id. -/
def mkRec (channel oid : String) : Rec :=
  ("sales-channel", FieldVal.str channel) ::
    ("order-id", FieldVal.str oid) :: commonFields

/-- Sample record: channel Amazon.com, order 111. -/
def wA1 : Rec := mkRec "Amazon.com" "111"

/-- Sample record: channel Amazon.com, order 222. -/
def wA2 : Rec := mkRec "Amazon.com" "222"

/-- Sample record whose first line lacks buyer-email (the two date fields
looked up before it are present). -/
def c4bad : Rec :=
  [("sales-channel", FieldVal.str "Amazon.com"),
   ("order-id", FieldVal.str "333"),
   ("purchase-date", FieldVal.str "P"),
   ("payments-date", FieldVal.str "D")]

/-- Sample record with all four boolean flag fields present in mixed
case. -/
def c10rec : Rec :=
  ("is-business-order", FieldVal.str "TRUE") ::
    ("is-prime", FieldVal.str "True") ::
    ("is-premium-order", FieldVal.str "FALSE") ::
    ("is-iba", FieldVal.str "tRuE") :: mkRec "Amazon.com" "111"

/-- Fallback element for extracting the payload of a generator result. -/
def xmlDefault : Xml := Xml.elem "none" [] none []

/-- Payload of a generator result (fallback element on error). -/
def getOk (x : Except PyErr Xml) : Xml :=
  match x with
  | Except.ok v => v
  | Except.error _ => xmlDefault

/-- Payload of a parser result (empty list on error). -/
def getOkL (x : Except PyErr (List Rec)) : List Rec :=
  match x with
  | Except.ok v => v
  | Except.error _ => []

/-- Sample grouped batch: two orders on one channel. -/
def wOrders1 : List (FieldVal × List Rec) :=
  [(FieldVal.str "111", [wA1]), (FieldVal.str "222", [wA2])]

/-- Sample session-id source, distinct per message. -/
def wSids1 : Nat → String := fun i => "S" ++ toString i

/-- Second sample session-id source. -/
def wSids2 : Nat → String := fun _ => "T"

/-- Document generated from the sample batch with the first session
source. -/
def wDoc1 : Xml := getOk (generate_amazon_xml wOrders1 "M" wSids1)

/-- Document generated from the sample batch with the second session
source. -/
def wDoc2 : Xml := getOk (generate_amazon_xml wOrders1 "M" wSids2)

/-- Sample grouped batch containing a complete order and one missing
buyer-email. -/
def c4orders : List (FieldVal × List Rec) :=
  [(FieldVal.str "111", [wA1]), (FieldVal.str "333", [c4bad])]

/-- Sample Message element rendered from the complete record. -/
def wMsg : Xml := getOk (messageElement 1 (FieldVal.str "111") "S" [wA1])

/-- Sample Message element rendered from the record with flags present. -/
def wMsg10 : Xml := getOk (messageElement 1 (FieldVal.str "111") "S" [c10rec])

/-- Sample Item element rendered from the complete record. -/
def wItemX : Xml := getOk (itemElement wA1)

/-- Sample date parser for the parser theorems. -/
def wFromiso : String → Option PyDatetime := fun s =>
  if s = "2024-12-25T10:00:00" then some ⟨2024, 12, 25, 10, 0, 0⟩ else none

/-- Sample header row. -/
def wHeader : List String := ["purchase-date", "order-id"]

/-- Sample data rows. -/
def wRows : List (List String) :=
  [["2024-12-25T10:00:00", "111"], ["2024-12-25T10:00:00", "222"]]

/-- Records parsed from the sample rows. -/
def wOut : List Rec := getOkL (parse_txt_to_objects wFromiso wHeader wRows)

/-- Minimal sample record: channel A, order 1. -/
def m1 : Rec :=
  [("sales-channel", FieldVal.str "A"), ("order-id", FieldVal.str "1")]

/-- Minimal sample record: channel B, same order id 1. -/
def m2 : Rec :=
  [("sales-channel", FieldVal.str "B"), ("order-id", FieldVal.str "1")]

/-- Grouping of the two minimal records: two channel batches, one order
each, under the same order id. -/
def mG : List (FieldVal × List (FieldVal × List Rec)) :=
  [(FieldVal.str "A", [(FieldVal.str "1", [m1])]),
   (FieldVal.str "B", [(FieldVal.str "1", [m2])])]

/-- Key extractor used in the ordering theorems: the record's order id. -/
def wOidOf : Rec → FieldVal := fun r =>
  (getField r "order-id").getD (FieldVal.str "")

/-- Key extractor used in the ordering theorems: the record's channel. -/
def wChOf : Rec → FieldVal := fun r =>
  (getField r "sales-channel").getD (FieldVal.str "")

/-! Basic lemmas about the Except monad, dict lookup and dict update. -/

theorem ok_bind {α β : Type} {a : α} {f : α → Except PyErr β} :
    (Except.ok a >>= f) = f a := rfl

theorem error_bind {α β : Type} {e : PyErr} {f : α → Except PyErr β} :
    ((Except.error e : Except PyErr α) >>= f) = Except.error e := rfl

theorem except_bind_ok {α β : Type} {x : Except PyErr α}
    {f : α → Except PyErr β} {b : β} (h : (x >>= f) = Except.ok b) :
    ∃ a, x = Except.ok a ∧ f a = Except.ok b := by
  cases x with
  | ok a => exact ⟨a, rfl, h⟩
  | error e => rw [error_bind] at h; exact absurd h (by simp)

theorem error_of_not_ok {α : Type} {x : Except PyErr α}
    (h : ∀ a, x ≠ Except.ok a) : ∃ e, x = Except.error e := by
  cases x with
  | ok a => exact absurd rfl (h a)
  | error e => exact ⟨e, rfl⟩

theorem dictGet_eq_ok {r : Rec} {k : String} {v : FieldVal} :
    dictGet r k = Except.ok v ↔ getField r k = some v := by
  unfold dictGet
  cases h : getField r k <;> simp

theorem dictGet_err_of_none {r : Rec} {k : String}
    (h : getField r k = none) :
    dictGet r k = Except.error (PyErr.keyError k) := by
  unfold dictGet; rw [h]

theorem getField_nil {k : String} : getField ([] : Rec) k = none := rfl

theorem getField_cons {p : String × FieldVal} {r : Rec} {k : String} :
    getField (p :: r) k = if p.1 = k then some p.2 else getField r k := by
  unfold getField
  by_cases h : p.1 = k <;> simp [List.find?_cons, h]

theorem getField_dictSet_same (r : Rec) (k : String) (v : FieldVal) :
    getField (dictSet r k v) k = some v := by
  induction r with
  | nil => simp [dictSet, getField_cons, getField_nil]
  | cons p rest ih =>
    by_cases h : p.1 = k
    · simp [dictSet, h, getField_cons]
    · simp [dictSet, h, getField_cons, ih]

theorem getField_dictSet_ne (r : Rec) (k : String) (v : FieldVal)
    (k' : String) (h : k' ≠ k) :
    getField (dictSet r k v) k' = getField r k' := by
  have h' : ¬ k = k' := fun hh => h hh.symm
  induction r with
  | nil =>
    simp [dictSet, getField_cons, getField_nil, h']
  | cons p rest ih =>
    by_cases hp : p.1 = k
    · subst hp
      have hk : ¬ p.1 = k' := h'
      simp [dictSet, getField_cons, hk]
    · simp [dictSet, hp, getField_cons, ih]

theorem getField_rowToDict_str {header : List String} {row : List String}
    {k : String} {v : FieldVal}
    (h : getField (rowToDict header row) k = some v) : ∃ s, v = FieldVal.str s := by
  induction header generalizing row with
  | nil => simp [rowToDict, getField_nil] at h
  | cons hd tl ih =>
    cases row with
    | nil => simp [rowToDict, getField_nil] at h
    | cons c cs =>
      rw [show rowToDict (hd :: tl) (c :: cs) =
            (hd, FieldVal.str c) :: rowToDict tl cs from rfl,
          getField_cons] at h
      by_cases hh : hd = k
      · simp [hh] at h
        exact ⟨c, h.symm⟩
      · simp [hh] at h
        exact ih h

/-! Lemmas about association-list lookup and the grouping accumulator. -/

theorem alookup_nil {α : Type} {k : FieldVal} :
    alookup ([] : List (FieldVal × α)) k = none := rfl

theorem alookup_cons {α : Type} {p : FieldVal × α} {m : List (FieldVal × α)}
    {k : FieldVal} :
    alookup (p :: m) k = if p.1 = k then some p.2 else alookup m k := by
  unfold alookup
  by_cases h : p.1 = k <;> simp [List.find?_cons, h]

theorem alookup_none_iff {α : Type} {m : List (FieldVal × α)} {k : FieldVal} :
    alookup m k = none ↔ k ∉ m.map Prod.fst := by
  induction m with
  | nil => simp [alookup_nil]
  | cons p rest ih =>
    rw [alookup_cons]
    by_cases h : p.1 = k
    · simp [h]
    · have h' : ¬ k = p.1 := fun hh => h hh.symm
      simp [h, h', ih]

theorem mem_of_alookup {α : Type} {m : List (FieldVal × α)} {k : FieldVal}
    {v : α} (h : alookup m k = some v) : (k, v) ∈ m := by
  induction m with
  | nil => simp [alookup_nil] at h
  | cons p rest ih =>
    rw [alookup_cons] at h
    by_cases hp : p.1 = k
    · rw [if_pos hp] at h
      obtain ⟨k1, v1⟩ := p
      simp only [Option.some.injEq] at h
      simp only at hp
      subst hp
      subst h
      exact List.mem_cons_self _ _
    · rw [if_neg hp] at h
      exact List.mem_cons_of_mem _ (ih h)

theorem alookup_of_mem_nodup {α : Type} {m : List (FieldVal × α)}
    (hn : (m.map Prod.fst).Nodup) {k : FieldVal} {v : α}
    (h : (k, v) ∈ m) : alookup m k = some v := by
  induction m with
  | nil => simp at h
  | cons p rest ih =>
    rw [List.map_cons, List.nodup_cons] at hn
    rw [alookup_cons]
    rw [List.mem_cons] at h
    rcases h with h | h
    · rw [← h]
      simp
    · have hk : ¬ p.1 = k := by
        intro hh
        apply hn.1
        rw [hh]
        exact List.mem_map.mpr ⟨(k, v), h, rfl⟩
      rw [if_neg hk]
      exact ih hn.2 h

theorem insertAppend_lookup_same (m : List (FieldVal × List Rec))
    (k : FieldVal) (r : Rec) :
    alookup (insertAppend m k r) k = some ((alookup m k).getD [] ++ [r]) := by
  induction m with
  | nil => simp [insertAppend, alookup_cons, alookup_nil]
  | cons p rest ih =>
    by_cases h : p.1 = k
    · simp [insertAppend, h, alookup_cons]
    · simp [insertAppend, h, alookup_cons, ih]

theorem insertAppend_lookup_ne (m : List (FieldVal × List Rec))
    (k : FieldVal) (r : Rec) (k' : FieldVal) (h : k' ≠ k) :
    alookup (insertAppend m k r) k' = alookup m k' := by
  have h' : ¬ k = k' := fun hh => h hh.symm
  induction m with
  | nil => simp [insertAppend, alookup_cons, alookup_nil, h']
  | cons p rest ih =>
    by_cases hp : p.1 = k
    · subst hp
      simp [insertAppend, alookup_cons, h']
    · simp only [insertAppend, hp, if_false, alookup_cons]
      by_cases hk : p.1 = k'
      · simp [hk]
      · simp [hk, ih]

theorem insertAppend_keys (m : List (FieldVal × List Rec)) (k : FieldVal)
    (r : Rec) :
    (insertAppend m k r).map Prod.fst =
      if k ∈ m.map Prod.fst then m.map Prod.fst else m.map Prod.fst ++ [k] := by
  induction m with
  | nil => simp [insertAppend]
  | cons p rest ih =>
    by_cases h : p.1 = k
    · simp [insertAppend, h]
    · have h' : ¬ k = p.1 := fun hh => h hh.symm
      simp only [insertAppend, h, if_false, List.map_cons, ih]
      by_cases hm : k ∈ rest.map Prod.fst
      · simp [hm, h']
      · simp [hm, h']

theorem insertAppend_nodup (m : List (FieldVal × List Rec)) (k : FieldVal)
    (r : Rec) (h : (m.map Prod.fst).Nodup) :
    ((insertAppend m k r).map Prod.fst).Nodup := by
  rw [insertAppend_keys]
  by_cases hm : k ∈ m.map Prod.fst
  · simpa [hm] using h
  · simp only [hm, if_false]
    simpa [List.nodup_append, hm] using h

theorem listTotal_nil : listTotal ([] : List (FieldVal × List Rec)) = 0 := rfl

theorem listTotal_cons (p : FieldVal × List Rec)
    (m : List (FieldVal × List Rec)) :
    listTotal (p :: m) = p.2.length + listTotal m := by
  simp [listTotal]

theorem insertAppend_total (m : List (FieldVal × List Rec)) (k : FieldVal)
    (r : Rec) : listTotal (insertAppend m k r) = listTotal m + 1 := by
  induction m with
  | nil => simp [insertAppend, listTotal]
  | cons p rest ih =>
    by_cases h : p.1 = k
    · simp [insertAppend, h, listTotal_cons]
      omega
    · simp [insertAppend, h, listTotal_cons, ih]
      omega

/-! Characterization of the single-field grouping pass. -/

theorem groupByFieldAux_lookup {field : String} (l : List Rec) :
    ∀ acc m, groupByFieldAux field acc l = Except.ok m →
      ∀ k, (alookup m k).getD [] =
        (alookup acc k).getD [] ++
          l.filter (fun r => decide (getField r field = some k)) := by
  induction l with
  | nil =>
    intro acc m h k
    simp only [groupByFieldAux, Except.ok.injEq] at h
    subst h
    simp
  | cons r rest ih =>
    intro acc m h k
    simp only [groupByFieldAux] at h
    cases hk : dictGet r field with
    | error e => rw [hk] at h; exact absurd h (by simp)
    | ok k0 =>
      rw [hk] at h
      simp only at h
      have hr : getField r field = some k0 := dictGet_eq_ok.mp hk
      have hrec := ih (insertAppend acc k0 r) m h k
      by_cases hkk : k0 = k
      · subst hkk
        rw [insertAppend_lookup_same] at hrec
        rw [List.filter_cons_of_pos (by simp [hr])]
        simp only [Option.getD_some] at hrec
        rw [hrec, List.append_assoc, List.singleton_append]
      · have hne : k ≠ k0 := fun hh => hkk hh.symm
        rw [insertAppend_lookup_ne _ _ _ _ hne] at hrec
        rw [List.filter_cons_of_neg (by simp [hr, hkk])]
        exact hrec

theorem groupByFieldAux_nodup {field : String} (l : List Rec) :
    ∀ acc m, groupByFieldAux field acc l = Except.ok m →
      (acc.map Prod.fst).Nodup → (m.map Prod.fst).Nodup := by
  induction l with
  | nil =>
    intro acc m h hn
    simp only [groupByFieldAux, Except.ok.injEq] at h
    subst h
    exact hn
  | cons r rest ih =>
    intro acc m h hn
    simp only [groupByFieldAux] at h
    cases hk : dictGet r field with
    | error e => rw [hk] at h; exact absurd h (by simp)
    | ok k0 =>
      rw [hk] at h
      simp only at h
      exact ih _ _ h (insertAppend_nodup _ _ _ hn)

theorem groupByFieldAux_total {field : String} (l : List Rec) :
    ∀ acc m, groupByFieldAux field acc l = Except.ok m →
      listTotal m = listTotal acc + l.length := by
  induction l with
  | nil =>
    intro acc m h
    simp only [groupByFieldAux, Except.ok.injEq] at h
    subst h
    simp
  | cons r rest ih =>
    intro acc m h
    simp only [groupByFieldAux] at h
    cases hk : dictGet r field with
    | error e => rw [hk] at h; exact absurd h (by simp)
    | ok k0 =>
      rw [hk] at h
      simp only at h
      rw [ih _ _ h, insertAppend_total]
      simp
      omega

theorem groupByFieldAux_key {field : String} (l : List Rec) :
    ∀ acc m, groupByFieldAux field acc l = Except.ok m →
      ∀ r ∈ l, ∃ k, getField r field = some k := by
  induction l with
  | nil => intro acc m _ r hr; simp at hr
  | cons r0 rest ih =>
    intro acc m h r hr
    simp only [groupByFieldAux] at h
    cases hk : dictGet r0 field with
    | error e => rw [hk] at h; exact absurd h (by simp)
    | ok k0 =>
      rw [hk] at h
      simp only at h
      rw [List.mem_cons] at hr
      rcases hr with hr | hr
      · subst hr
        exact ⟨k0, dictGet_eq_ok.mp hk⟩
      · exact ih _ _ h r hr

theorem dedupFS_congr {s1 s2 : List FieldVal} (h : ∀ x, x ∈ s1 ↔ x ∈ s2) :
    ∀ ks, dedupFS s1 ks = dedupFS s2 ks := by
  intro ks
  induction ks generalizing s1 s2 with
  | nil => rfl
  | cons k rest ih =>
    simp only [dedupFS]
    by_cases hk : k ∈ s1
    · rw [if_pos hk, if_pos ((h k).mp hk)]
      exact ih h
    · rw [if_neg hk, if_neg (fun hh => hk ((h k).mpr hh))]
      congr 1
      apply ih
      intro x
      simp only [List.mem_cons]
      rw [h x]

theorem groupByFieldAux_keys {field : String} {keyOf : Rec → FieldVal}
    (l : List Rec) :
    ∀ acc m, groupByFieldAux field acc l = Except.ok m →
      (∀ r ∈ l, getField r field = some (keyOf r)) →
      m.map Prod.fst =
        acc.map Prod.fst ++ dedupFS (acc.map Prod.fst) (l.map keyOf) := by
  induction l with
  | nil =>
    intro acc m h _
    simp only [groupByFieldAux, Except.ok.injEq] at h
    subst h
    simp [dedupFS]
  | cons r rest ih =>
    intro acc m h hkeys
    simp only [groupByFieldAux] at h
    cases hk : dictGet r field with
    | error e => rw [hk] at h; exact absurd h (by simp)
    | ok k0 =>
      rw [hk] at h
      simp only at h
      have hr : getField r field = some k0 := dictGet_eq_ok.mp hk
      have hkey0 : keyOf r = k0 := by
        have := hkeys r (List.mem_cons_self _ _)
        rw [hr] at this
        exact (Option.some.injEq _ _ ▸ this.symm :)
      have hkeys' : ∀ r' ∈ rest, getField r' field = some (keyOf r') :=
        fun r' hr' => hkeys r' (List.mem_cons_of_mem _ hr')
      have hrec := ih _ _ h hkeys'
      rw [insertAppend_keys] at hrec
      simp only [List.map_cons, dedupFS, hkey0]
      by_cases hmem : k0 ∈ acc.map Prod.fst
      · rw [if_pos hmem] at hrec
        rw [if_pos hmem]
        exact hrec
      · rw [if_neg hmem] at hrec
        rw [if_neg hmem, hrec, List.append_assoc, List.singleton_append]
        congr 1
        congr 1
        apply dedupFS_congr
        intro x
        simp [or_comm]

/-! Characterization of the per-channel order grouping and of `group_run`. -/

theorem gopc_fst (cm : List (FieldVal × List Rec))
    (g : List (FieldVal × List (FieldVal × List Rec)))
    (h : groupOrdersPerChannel cm = Except.ok g) :
    g.map Prod.fst = cm.map Prod.fst := by
  induction cm generalizing g with
  | nil =>
    simp only [groupOrdersPerChannel, Except.ok.injEq] at h
    subst h
    rfl
  | cons p rest ih =>
    simp only [groupOrdersPerChannel] at h
    cases h1 : groupByField "order-id" p.2 with
    | error e => rw [h1] at h; exact absurd h (by simp)
    | ok om =>
      rw [h1] at h
      simp only at h
      cases h2 : groupOrdersPerChannel rest with
      | error e => rw [h2] at h; exact absurd h (by simp)
      | ok g0 =>
        rw [h2] at h
        simp only [Except.ok.injEq] at h
        subst h
        simp [ih _ h2]

theorem gopc_total (cm : List (FieldVal × List Rec))
    (g : List (FieldVal × List (FieldVal × List Rec)))
    (h : groupOrdersPerChannel cm = Except.ok g) :
    (g.map (fun p => listTotal p.2)).sum = listTotal cm := by
  induction cm generalizing g with
  | nil =>
    simp only [groupOrdersPerChannel, Except.ok.injEq] at h
    subst h
    rfl
  | cons p rest ih =>
    simp only [groupOrdersPerChannel] at h
    cases h1 : groupByField "order-id" p.2 with
    | error e => rw [h1] at h; exact absurd h (by simp)
    | ok om =>
      rw [h1] at h
      simp only at h
      cases h2 : groupOrdersPerChannel rest with
      | error e => rw [h2] at h; exact absurd h (by simp)
      | ok g0 =>
        rw [h2] at h
        simp only [Except.ok.injEq] at h
        subst h
        have hsum : listTotal om = p.2.length := by
          have := @groupByFieldAux_total "order-id" p.2 [] om h1
          simpa [listTotal_nil] using this
        simp [listTotal_cons, ih _ h2, hsum]

theorem gopc_mem (cm : List (FieldVal × List Rec))
    (g : List (FieldVal × List (FieldVal × List Rec)))
    (h : groupOrdersPerChannel cm = Except.ok g)
    {c : FieldVal} {om : List (FieldVal × List Rec)} (hm : (c, om) ∈ g) :
    ∃ recs, (c, recs) ∈ cm ∧ groupByField "order-id" recs = Except.ok om := by
  induction cm generalizing g with
  | nil =>
    simp only [groupOrdersPerChannel, Except.ok.injEq] at h
    subst h
    simp at hm
  | cons p rest ih =>
    simp only [groupOrdersPerChannel] at h
    cases h1 : groupByField "order-id" p.2 with
    | error e => rw [h1] at h; exact absurd h (by simp)
    | ok om0 =>
      rw [h1] at h
      simp only at h
      cases h2 : groupOrdersPerChannel rest with
      | error e => rw [h2] at h; exact absurd h (by simp)
      | ok g0 =>
        rw [h2] at h
        simp only [Except.ok.injEq] at h
        subst h
        rw [List.mem_cons] at hm
        rcases hm with hm | hm
        · simp only [Prod.mk.injEq] at hm
          obtain ⟨hm1, hm2⟩ := hm
          subst hm1
          subst hm2
          exact ⟨p.2, by simp, h1⟩
        · obtain ⟨recs, hr1, hr2⟩ := ih _ h2 hm
          exact ⟨recs, List.mem_cons_of_mem _ hr1, hr2⟩

theorem gopc_mem_rev (cm : List (FieldVal × List Rec))
    (g : List (FieldVal × List (FieldVal × List Rec)))
    (h : groupOrdersPerChannel cm = Except.ok g)
    {c : FieldVal} {recs : List Rec} (hm : (c, recs) ∈ cm) :
    ∃ om, (c, om) ∈ g ∧ groupByField "order-id" recs = Except.ok om := by
  induction cm generalizing g with
  | nil => simp at hm
  | cons p rest ih =>
    simp only [groupOrdersPerChannel] at h
    cases h1 : groupByField "order-id" p.2 with
    | error e => rw [h1] at h; exact absurd h (by simp)
    | ok om0 =>
      rw [h1] at h
      simp only at h
      cases h2 : groupOrdersPerChannel rest with
      | error e => rw [h2] at h; exact absurd h (by simp)
      | ok g0 =>
        rw [h2] at h
        simp only [Except.ok.injEq] at h
        subst h
        rw [List.mem_cons] at hm
        rcases hm with hm | hm
        · subst hm
          exact ⟨om0, List.mem_cons_self _ _, h1⟩
        · obtain ⟨om, ho1, ho2⟩ := ih _ h2 hm
          exact ⟨om, List.mem_cons_of_mem _ ho1, ho2⟩

theorem group_run_total {l : List Rec}
    {g : List (FieldVal × List (FieldVal × List Rec))}
    (h : group_run l = Except.ok g) :
    (g.map (fun p => listTotal p.2)).sum = l.length := by
  unfold group_run at h
  cases hcm : groupByField "sales-channel" l with
  | error e => rw [hcm] at h; exact absurd h (by simp)
  | ok cm =>
    rw [hcm] at h
    simp only at h
    rw [gopc_total cm g h]
    have := @groupByFieldAux_total "sales-channel" l [] cm hcm
    simpa [listTotal_nil] using this

theorem group_run_slot {l : List Rec}
    {g : List (FieldVal × List (FieldVal × List Rec))}
    (h : group_run l = Except.ok g) :
    ∀ c om, (c, om) ∈ g → ∀ o vs, (o, vs) ∈ om → ∀ r,
      r ∈ vs ↔ r ∈ l ∧ getField r "sales-channel" = some c ∧
        getField r "order-id" = some o := by
  unfold group_run at h
  cases hcm : groupByField "sales-channel" l with
  | error e => rw [hcm] at h; exact absurd h (by simp)
  | ok cm =>
    rw [hcm] at h
    simp only at h
    intro c om hcom o vs hovs r
    obtain ⟨recs, hrec1, hrec2⟩ := gopc_mem cm g h hcom
    have hcmnd : (cm.map Prod.fst).Nodup :=
      groupByFieldAux_nodup l [] cm hcm (by simp)
    have hal : alookup cm c = some recs := alookup_of_mem_nodup hcmnd hrec1
    have hrecs : recs =
        l.filter (fun r => decide (getField r "sales-channel" = some c)) := by
      have := groupByFieldAux_lookup l [] cm hcm c
      rw [hal] at this
      simpa using this
    have homnd : (om.map Prod.fst).Nodup :=
      groupByFieldAux_nodup recs [] om hrec2 (by simp)
    have halo : alookup om o = some vs := alookup_of_mem_nodup homnd hovs
    have hvs : vs =
        recs.filter (fun r => decide (getField r "order-id" = some o)) := by
      have := groupByFieldAux_lookup recs [] om hrec2 o
      rw [halo] at this
      simpa using this
    rw [hvs, List.mem_filter, hrecs, List.mem_filter]
    simp [and_assoc]

theorem group_run_cover {l : List Rec}
    {g : List (FieldVal × List (FieldVal × List Rec))}
    (h : group_run l = Except.ok g) :
    ∀ r ∈ l, ∃ c om o vs, (c, om) ∈ g ∧ (o, vs) ∈ om ∧ r ∈ vs := by
  unfold group_run at h
  cases hcm : groupByField "sales-channel" l with
  | error e => rw [hcm] at h; exact absurd h (by simp)
  | ok cm =>
    rw [hcm] at h
    simp only at h
    intro r hr
    obtain ⟨c, hc⟩ := groupByFieldAux_key l [] cm hcm r hr
    have hflt : r ∈ l.filter
        (fun r => decide (getField r "sales-channel" = some c)) :=
      List.mem_filter.mpr ⟨hr, by simp [hc]⟩
    have hlk := groupByFieldAux_lookup l [] cm hcm c
    simp only [alookup_nil, Option.getD_none, List.nil_append] at hlk
    cases halc : alookup cm c with
    | none =>
      rw [halc] at hlk
      simp at hlk
      exact absurd hc (hlk r hr)
    | some recs =>
      rw [halc] at hlk
      simp only [Option.getD_some] at hlk
      have hrecmem : (c, recs) ∈ cm := mem_of_alookup halc
      obtain ⟨om, hom1, hom2⟩ := gopc_mem_rev cm g h hrecmem
      have hrin : r ∈ recs := by rw [hlk]; exact hflt
      obtain ⟨o, ho⟩ := groupByFieldAux_key recs [] om hom2 r hrin
      have hflt2 : r ∈ recs.filter
          (fun r => decide (getField r "order-id" = some o)) :=
        List.mem_filter.mpr ⟨hrin, by simp [ho]⟩
      have hlk2 := groupByFieldAux_lookup recs [] om hom2 o
      simp only [alookup_nil, Option.getD_none, List.nil_append] at hlk2
      cases halo : alookup om o with
      | none =>
        rw [halo] at hlk2
        simp at hlk2
        exact absurd ho (hlk2 r hrin)
      | some vs =>
        rw [halo] at hlk2
        simp only [Option.getD_some] at hlk2
        refine ⟨c, om, o, vs, hom1, mem_of_alookup halo, ?_⟩
        rw [hlk2]
        exact hflt2

/-! Shape lemmas for the XML generator. -/

theorem itemElement_ok_shape {item : Rec} {x : Xml}
    (h : itemElement item = Except.ok x) :
    ∃ oic sku title qty principal cur shipping tax shippingTax fee,
      getField item "order-item-id" = some oic ∧
      getField item "sku" = some sku ∧
      getField item "product-name" = some title ∧
      getField item "quantity-purchased" = some qty ∧
      getField item "item-price" = some principal ∧
      getField item "currency" = some cur ∧
      getField item "shipping-price" = some shipping ∧
      getField item "item-tax" = some tax ∧
      getField item "shipping-tax" = some shippingTax ∧
      getField item "payment-method-fee" = some fee ∧
      x = buildItem oic.pyStr sku.pyStr title.pyStr qty.pyStr principal.pyStr
        cur.pyStr shipping.pyStr cur.pyStr tax.pyStr cur.pyStr
        shippingTax.pyStr cur.pyStr fee.pyStr cur.pyStr := by
  unfold itemElement at h
  obtain ⟨oic, h1, h⟩ := except_bind_ok h
  obtain ⟨sku, h2, h⟩ := except_bind_ok h
  obtain ⟨title, h3, h⟩ := except_bind_ok h
  obtain ⟨qty, h4, h⟩ := except_bind_ok h
  obtain ⟨principal, h5, h⟩ := except_bind_ok h
  obtain ⟨cur1, h6, h⟩ := except_bind_ok h
  obtain ⟨shipping, h7, h⟩ := except_bind_ok h
  obtain ⟨cur2, h8, h⟩ := except_bind_ok h
  obtain ⟨tax, h9, h⟩ := except_bind_ok h
  obtain ⟨cur3, h10, h⟩ := except_bind_ok h
  obtain ⟨shippingTax, h11, h⟩ := except_bind_ok h
  obtain ⟨cur4, h12, h⟩ := except_bind_ok h
  obtain ⟨fee, h13, h⟩ := except_bind_ok h
  obtain ⟨cur5, h14, h⟩ := except_bind_ok h
  rw [h6] at h8 h10 h12 h14
  injection h8 with e2
  injection h10 with e3
  injection h12 with e4
  injection h14 with e5
  subst e2; subst e3; subst e4; subst e5
  injection h with hx
  exact ⟨oic, sku, title, qty, principal, cur1, shipping, tax, shippingTax,
    fee, dictGet_eq_ok.mp h1, dictGet_eq_ok.mp h2, dictGet_eq_ok.mp h3,
    dictGet_eq_ok.mp h4, dictGet_eq_ok.mp h5, dictGet_eq_ok.mp h6,
    dictGet_eq_ok.mp h7, dictGet_eq_ok.mp h9, dictGet_eq_ok.mp h11,
    dictGet_eq_ok.mp h13, hx.symm⟩

theorem fieldsOf_ok_opt {order : Rec} {f : OrderFields}
    (h : fieldsOf order = Except.ok f) :
    f.buyerPhone = getTextD order "buyer-phone-number" "" ∧
    f.shipPhone = getTextD order "ship-phone-number" "" ∧
    f.isBusiness = flagText order "is-business-order" ∧
    f.isPrime = flagText order "is-prime" ∧
    f.isPremium = flagText order "is-premium-order" ∧
    f.isIba = flagText order "is-iba" := by
  unfold fieldsOf at h
  obtain ⟨v1, h1, h⟩ := except_bind_ok h
  obtain ⟨v2, h2, h⟩ := except_bind_ok h
  obtain ⟨v3, h3, h⟩ := except_bind_ok h
  obtain ⟨v4, h4, h⟩ := except_bind_ok h
  obtain ⟨v5, h5, h⟩ := except_bind_ok h
  obtain ⟨v6, h6, h⟩ := except_bind_ok h
  obtain ⟨v7, h7, h⟩ := except_bind_ok h
  obtain ⟨v8, h8, h⟩ := except_bind_ok h
  obtain ⟨v9, h9, h⟩ := except_bind_ok h
  obtain ⟨v10, h10, h⟩ := except_bind_ok h
  obtain ⟨v11, h11, h⟩ := except_bind_ok h
  obtain ⟨v12, h12, h⟩ := except_bind_ok h
  obtain ⟨v13, h13, h⟩ := except_bind_ok h
  obtain ⟨v14, h14, h⟩ := except_bind_ok h
  obtain ⟨v15, h15, h⟩ := except_bind_ok h
  obtain ⟨v16, h16, h⟩ := except_bind_ok h
  obtain ⟨v17, h17, h⟩ := except_bind_ok h
  obtain ⟨v18, h18, h⟩ := except_bind_ok h
  obtain ⟨v19, h19, h⟩ := except_bind_ok h
  obtain ⟨v20, h20, h⟩ := except_bind_ok h
  obtain ⟨v21, h21, h⟩ := except_bind_ok h
  injection h with hf
  subst hf
  exact ⟨rfl, rfl, rfl, rfl, rfl, rfl⟩

theorem fieldsOf_err_of_missing {order : Rec}
    (h : getField order "buyer-email" = none) :
    ∃ e, fieldsOf order = Except.error e := by
  cases h1 : dictGet order "purchase-date" with
  | error e => exact ⟨e, by unfold fieldsOf; rw [h1, error_bind]⟩
  | ok v1 =>
    cases h2 : dictGet order "payments-date" with
    | error e => exact ⟨e, by unfold fieldsOf; rw [h1, ok_bind, h2, error_bind]⟩
    | ok v2 =>
      refine ⟨PyErr.keyError "buyer-email", ?_⟩
      unfold fieldsOf
      rw [h1, ok_bind, h2, ok_bind, dictGet_err_of_none h, error_bind]

theorem messageElement_ok_shape {i : Nat} {oid : FieldVal} {sid : String}
    {lines : List Rec} {x : Xml}
    (h : messageElement i oid sid lines = Except.ok x) :
    ∃ order f items, headE lines = Except.ok order ∧
      fieldsOf order = Except.ok f ∧ itemList lines = Except.ok items ∧
      x = buildMessage i oid.pyStr sid f items := by
  unfold messageElement at h
  obtain ⟨order, h1, h⟩ := except_bind_ok h
  obtain ⟨f, h2, h⟩ := except_bind_ok h
  obtain ⟨items, h3, h⟩ := except_bind_ok h
  injection h with hx
  exact ⟨order, f, items, h1, h2, h3, hx.symm⟩

theorem messageElement_err (i : Nat) (oid : FieldVal) (sid : String)
    (lines : List Rec) {r : Rec} (hh : lines.head? = some r)
    (hm : getField r "buyer-email" = none) :
    ∃ e, messageElement i oid sid lines = Except.error e := by
  have hhead : headE lines = Except.ok r := by unfold headE; rw [hh]
  obtain ⟨e, he⟩ := fieldsOf_err_of_missing hm
  exact ⟨e, by unfold messageElement; rw [hhead, ok_bind, he, error_bind]⟩

theorem messageElement_facts {n : Nat} {oid : FieldVal} {sid : String}
    {lines : List Rec} {msg : Xml}
    (h : messageElement n oid sid lines = Except.ok msg) :
    msg.tag = "Message" ∧
    textOfChild msg "MessageID" = some (toString n) ∧
    ((childByTag msg "OrderReport").bind
      (fun orp => textOfChild orp "AmazonOrderID")) = some oid.pyStr := by
  obtain ⟨order, f, items, _, _, _, hx⟩ := messageElement_ok_shape h
  subst hx
  exact ⟨rfl, rfl, rfl⟩

theorem generateMessages_spec (sids : Nat → String)
    (om : List (FieldVal × List Rec)) :
    ∀ i msgs, generateMessages sids i om = Except.ok msgs →
      msgs.length = om.length ∧
      ∀ j, j < om.length → ∃ oid lines msg, om[j]? = some (oid, lines) ∧
        msgs[j]? = some msg ∧
        messageElement (i + j) oid (sids (i + j)) lines = Except.ok msg := by
  induction om with
  | nil =>
    intro i msgs h
    simp only [generateMessages, Except.ok.injEq] at h
    subst h
    exact ⟨rfl, fun j hj => absurd hj (by simp)⟩
  | cons p rest ih =>
    intro i msgs h
    simp only [generateMessages] at h
    cases h1 : messageElement i p.1 (sids i) p.2 with
    | error e => rw [h1] at h; exact absurd h (by simp)
    | ok m =>
      rw [h1] at h
      simp only at h
      cases h2 : generateMessages sids (i + 1) rest with
      | error e => rw [h2] at h; exact absurd h (by simp)
      | ok ms =>
        rw [h2] at h
        simp only [Except.ok.injEq] at h
        subst h
        obtain ⟨hlen, hpt⟩ := ih (i + 1) ms h2
        refine ⟨by simp [hlen], ?_⟩
        intro j hj
        cases j with
        | zero =>
          refine ⟨p.1, p.2, m, by simp, by simp, by simpa using h1⟩
        | succ j0 =>
          have hj0 : j0 < rest.length := by simpa using hj
          obtain ⟨oid, lines, msg, ha, hb, hc⟩ := hpt j0 hj0
          have harith : i + (j0 + 1) = i + 1 + j0 := by omega
          refine ⟨oid, lines, msg, by simpa using ha, by simpa using hb, ?_⟩
          rw [harith]
          exact hc

/-! Erasure lemmas for the determinism-up-to-session-id property. -/

theorem eraseSessionList_append (xs ys : List Xml) :
    eraseSessionList (xs ++ ys) = eraseSessionList xs ++ eraseSessionList ys := by
  induction xs with
  | nil => rfl
  | cons c cs ih => simp [eraseSessionList, ih]

theorem erase_buildMessage (n : Nat) (oidS sid sid' : String)
    (f : OrderFields) (items : List Xml) :
    eraseSession (buildMessage n oidS sid f items) =
      eraseSession (buildMessage n oidS sid' f items) := rfl

theorem messageElement_erase {n : Nat} {oid : FieldVal} {sid sid' : String}
    {lines : List Rec} {x x' : Xml}
    (h : messageElement n oid sid lines = Except.ok x)
    (h' : messageElement n oid sid' lines = Except.ok x') :
    eraseSession x = eraseSession x' := by
  obtain ⟨o1, f1, it1, ha1, hb1, hc1, hx⟩ := messageElement_ok_shape h
  obtain ⟨o2, f2, it2, ha2, hb2, hc2, hx'⟩ := messageElement_ok_shape h'
  rw [ha1] at ha2
  injection ha2 with e1
  subst e1
  rw [hb1] at hb2
  injection hb2 with e2
  subst e2
  rw [hc1] at hc2
  injection hc2 with e3
  subst e3
  subst hx
  subst hx'
  exact erase_buildMessage n oid.pyStr sid sid' f1 it1

theorem generateMessages_erase (sids sids' : Nat → String)
    (om : List (FieldVal × List Rec)) :
    ∀ i ms ms', generateMessages sids i om = Except.ok ms →
      generateMessages sids' i om = Except.ok ms' →
      eraseSessionList ms = eraseSessionList ms' := by
  induction om with
  | nil =>
    intro i ms ms' h h'
    simp only [generateMessages, Except.ok.injEq] at h h'
    subst h
    subst h'
    rfl
  | cons p rest ih =>
    intro i ms ms' h h'
    simp only [generateMessages] at h h'
    cases h1 : messageElement i p.1 (sids i) p.2 with
    | error e => rw [h1] at h; exact absurd h (by simp)
    | ok m =>
      rw [h1] at h
      simp only at h
      cases h2 : generateMessages sids (i + 1) rest with
      | error e => rw [h2] at h; exact absurd h (by simp)
      | ok ms0 =>
        rw [h2] at h
        simp only [Except.ok.injEq] at h
        subst h
        cases h1' : messageElement i p.1 (sids' i) p.2 with
        | error e => rw [h1'] at h'; exact absurd h' (by simp)
        | ok m' =>
          rw [h1'] at h'
          simp only at h'
          cases h2' : generateMessages sids' (i + 1) rest with
          | error e => rw [h2'] at h'; exact absurd h' (by simp)
          | ok ms0' =>
            rw [h2'] at h'
            simp only [Except.ok.injEq] at h'
            subst h'
            simp only [eraseSessionList]
            rw [messageElement_erase h1 h1', ih (i + 1) ms0 ms0' h2 h2']

theorem erase_buildEnvelope (mid : String) (msgs : List Xml) :
    eraseSession (buildEnvelope mid msgs) =
      buildEnvelope mid (eraseSessionList msgs) := rfl

/-! Characterization of the row parser. -/

theorem parseRow_ok {fromiso : String → Option PyDatetime}
    {header : List String} {row : List String} {rec : Rec}
    (h : parseRow fromiso header row = Except.ok rec) :
    ∃ s dt,
      getField (rowToDict header row) "purchase-date" =
        some (FieldVal.str s) ∧
      fromiso s = some dt ∧
      rec = dictSet (rowToDict header row) "order_date" (FieldVal.dt dt) := by
  unfold parseRow at h
  cases hg : getField (rowToDict header row) "purchase-date" with
  | none => rw [hg] at h; exact absurd h (by simp)
  | some v =>
    obtain ⟨s, hs⟩ := getField_rowToDict_str hg
    subst hs
    rw [hg] at h
    simp only [FieldVal.pyStr] at h
    cases hf : fromiso s with
    | none => rw [hf] at h; exact absurd h (by simp)
    | some dt =>
      rw [hf] at h
      simp only [Except.ok.injEq] at h
      exact ⟨s, dt, rfl, hf, h.symm⟩

/-! Claim theorems. -/

/-- C1: for every input sequence of records, the grouping stage of `run`
partitions the records exactly: the OrderLine count summed over all
channel batches and orders equals the input record count, each slot of the
grouped structure holds exactly the records whose own sales-channel and
order-id fields name that slot, and every input record lands in such a
slot. -/
theorem claim_c1 (l : List Rec)
    (g : List (FieldVal × List (FieldVal × List Rec)))
    (h : group_run l = Except.ok g) :
    (g.map (fun p => listTotal p.2)).sum = l.length ∧
    (∀ c om, (c, om) ∈ g → ∀ o vs, (o, vs) ∈ om → ∀ r,
      r ∈ vs ↔ r ∈ l ∧ getField r "sales-channel" = some c ∧
        getField r "order-id" = some o) ∧
    (∀ r ∈ l, ∃ c om o vs, (c, om) ∈ g ∧ (o, vs) ∈ om ∧ r ∈ vs) :=
  ⟨group_run_total h, group_run_slot h, group_run_cover h⟩

/-- C8: records sharing an order id but reporting different sales channels
are grouped into different channel batches, each holding its own order
under that same order id; neither record appears in the other channel's
slot. -/
theorem claim_c8 (l : List Rec)
    (g : List (FieldVal × List (FieldVal × List Rec)))
    (r1 r2 : Rec) (c1 c2 o : FieldVal)
    (h : group_run l = Except.ok g) (h1 : r1 ∈ l) (h2 : r2 ∈ l)
    (hc1 : getField r1 "sales-channel" = some c1)
    (hc2 : getField r2 "sales-channel" = some c2) (hne : c1 ≠ c2)
    (ho1 : getField r1 "order-id" = some o)
    (ho2 : getField r2 "order-id" = some o) :
    ∃ om1 vs1 om2 vs2, (c1, om1) ∈ g ∧ (c2, om2) ∈ g ∧
      (o, vs1) ∈ om1 ∧ (o, vs2) ∈ om2 ∧
      r1 ∈ vs1 ∧ r2 ∈ vs2 ∧ r2 ∉ vs1 ∧ r1 ∉ vs2 := by
  obtain ⟨c1', om1, o1', vs1, hg1, hov1, hin1⟩ := group_run_cover h r1 h1
  obtain ⟨c2', om2, o2', vs2, hg2, hov2, hin2⟩ := group_run_cover h r2 h2
  have hs1 := (group_run_slot h c1' om1 hg1 o1' vs1 hov1 r1).mp hin1
  have hs2 := (group_run_slot h c2' om2 hg2 o2' vs2 hov2 r2).mp hin2
  have hcc1 : c1' = c1 := by
    have := hs1.2.1
    rw [hc1] at this
    exact ((Option.some.injEq _ _).mp this).symm
  have hoo1 : o1' = o := by
    have := hs1.2.2
    rw [ho1] at this
    exact ((Option.some.injEq _ _).mp this).symm
  have hcc2 : c2' = c2 := by
    have := hs2.2.1
    rw [hc2] at this
    exact ((Option.some.injEq _ _).mp this).symm
  have hoo2 : o2' = o := by
    have := hs2.2.2
    rw [ho2] at this
    exact ((Option.some.injEq _ _).mp this).symm
  rw [hcc1] at hg1
  rw [hoo1] at hov1
  rw [hcc2] at hg2
  rw [hoo2] at hov2
  refine ⟨om1, vs1, om2, vs2, hg1, hg2, hov1, hov2, hin1, hin2, ?_, ?_⟩
  · intro hbad
    have := (group_run_slot h c1 om1 hg1 o vs1 hov1 r2).mp hbad
    rw [hc2] at this
    exact hne ((Option.some.injEq _ _).mp this.2.1).symm
  · intro hbad
    have := (group_run_slot h c2 om2 hg2 o vs2 hov2 r1).mp hbad
    rw [hc1] at this
    exact hne ((Option.some.injEq _ _).mp this.2.1)

/-- C7: for every well-formed tab-delimited input whose rows all parse,
the parser emits exactly one record per data row in row order; each output
record is its row's field dict with `order_date` set to the parsed value
of the row's purchase-date field, all other fields unchanged. -/
theorem claim_c7 (fromiso : String → Option PyDatetime)
    (header : List String) (rows : List (List String)) (out : List Rec)
    (h : parse_txt_to_objects fromiso header rows = Except.ok out) :
    out.length = rows.length ∧
    ∀ j, j < rows.length → ∃ row s dt,
      rows[j]? = some row ∧
      getField (rowToDict header row) "purchase-date" =
        some (FieldVal.str s) ∧
      fromiso s = some dt ∧
      out[j]? =
        some (dictSet (rowToDict header row) "order_date" (FieldVal.dt dt)) ∧
      (∀ k, k ≠ "order_date" →
        getField (dictSet (rowToDict header row) "order_date"
          (FieldVal.dt dt)) k = getField (rowToDict header row) k) ∧
      getField (dictSet (rowToDict header row) "order_date"
        (FieldVal.dt dt)) "order_date" = some (FieldVal.dt dt) := by
  induction rows generalizing out with
  | nil =>
    simp only [parse_txt_to_objects, Except.ok.injEq] at h
    subst h
    exact ⟨rfl, fun j hj => absurd hj (by simp)⟩
  | cons row rest ih =>
    simp only [parse_txt_to_objects] at h
    cases h1 : parseRow fromiso header row with
    | error e => rw [h1] at h; exact absurd h (by simp)
    | ok r0 =>
      rw [h1] at h
      simp only at h
      cases h2 : parse_txt_to_objects fromiso header rest with
      | error e => rw [h2] at h; exact absurd h (by simp)
      | ok rs =>
        rw [h2] at h
        simp only [Except.ok.injEq] at h
        subst h
        obtain ⟨hlen, hpt⟩ := ih rs h2
        refine ⟨by simp [hlen], ?_⟩
        intro j hj
        cases j with
        | zero =>
          obtain ⟨s, dt, hs, hf, hrec⟩ := parseRow_ok h1
          refine ⟨row, s, dt, by simp, hs, hf, by simp [hrec], ?_, ?_⟩
          · intro k hk
            exact getField_dictSet_ne _ _ _ _ hk
          · exact getField_dictSet_same _ _ _
        | succ j0 =>
          have hj0 : j0 < rest.length := by simpa using hj
          obtain ⟨row, s, dt, ha, hb, hc, hd, he, hf⟩ := hpt j0 hj0
          exact ⟨row, s, dt, by simpa using ha, hb, hc, by simpa using hd,
            he, hf⟩

/-- C3 counterexample: a record whose order_date is exactly the start
instant and whose cancellation flag is "false" satisfies the claim's
inclusive-exclusive filter but is NOT returned by the code's query, whose
`$gt` bound excludes the start instant. -/
theorem claim_c3_counterexample :
    c3ClaimFilter [("order_date", FieldVal.dt startDate),
      ("is-buyer-requested-cancellation", FieldVal.str "false")] = true ∧
    query_mongodb [[("order_date", FieldVal.dt startDate),
      ("is-buyer-requested-cancellation", FieldVal.str "false")]] = [] :=
  ⟨rfl, rfl⟩

/-- C3 amended: the store query's fixed filter selects exactly the records
whose order_date lies STRICTLY between the two instants (both the start
and the end instant excluded) and whose cancellation field equals the
string "false". -/
theorem claim_c3 (docs : List Rec) (r : Rec) :
    r ∈ query_mongodb docs ↔
      r ∈ docs ∧
      (∃ d, getField r "order_date" = some (FieldVal.dt d) ∧
        PyDatetime.ltb startDate d = true ∧ PyDatetime.ltb d endDate = true) ∧
      getField r "is-buyer-requested-cancellation" =
        some (FieldVal.str "false") := by
  unfold query_mongodb mongoFind
  rw [List.mem_filter]
  simp only [List.all_cons, List.all_nil, Bool.and_true, Bool.and_eq_true]
  constructor
  · rintro ⟨hmem, hc1, hc2⟩
    refine ⟨hmem, ?_, ?_⟩
    · unfold condMatches at hc1
      cases hv : getField r "order_date" with
      | none => rw [hv] at hc1; exact absurd hc1 (by simp)
      | some v =>
        cases v with
        | str s => rw [hv] at hc1; exact absurd hc1 (by simp)
        | dt d =>
          rw [hv] at hc1
          simp only [Bool.and_eq_true] at hc1
          exact ⟨d, rfl, hc1.1, hc1.2⟩
    · unfold condMatches at hc2
      cases hv : getField r "is-buyer-requested-cancellation" with
      | none => rw [hv] at hc2; exact absurd hc2 (by simp)
      | some v =>
        cases v with
        | dt d => rw [hv] at hc2; exact absurd hc2 (by simp)
        | str s =>
          rw [hv] at hc2
          simp only [decide_eq_true_eq] at hc2
          rw [hc2]
  · rintro ⟨hmem, ⟨d, hd, hlt1, hlt2⟩, hcan⟩
    refine ⟨hmem, ?_, ?_⟩
    · unfold condMatches
      rw [hd]
      simp [hlt1, hlt2]
    · unfold condMatches
      rw [hcan]
      simp

theorem generateMessages_err (sids : Nat → String) {oid : FieldVal}
    {lines : List Rec} {r : Rec} (hh : lines.head? = some r)
    (hm : getField r "buyer-email" = none) :
    ∀ orders : List (FieldVal × List Rec), (oid, lines) ∈ orders →
      ∀ i, ∃ e, generateMessages sids i orders = Except.error e := by
  intro orders
  induction orders with
  | nil => intro hmem i; simp at hmem
  | cons p rest ih =>
    intro hmem i
    rw [List.mem_cons] at hmem
    rcases hmem with hmem | hmem
    · have hl0 : p.2 = lines := by rw [← hmem]
      obtain ⟨e, he⟩ := messageElement_err i p.1 (sids i) p.2
        (by rw [hl0]; exact hh) hm
      exact ⟨e, by simp only [generateMessages]; rw [he]⟩
    · cases h1 : messageElement i p.1 (sids i) p.2 with
      | error e => exact ⟨e, by simp only [generateMessages]; rw [h1]⟩
      | ok m =>
        obtain ⟨e, he⟩ := ih hmem (i + 1)
        exact ⟨e, by simp only [generateMessages]; rw [h1, he]⟩

/-- C4 counterexample: in a batch holding a complete order (111) and an
order whose first line lacks buyer-email (333), `generate_amazon_xml`
raises the KeyError and returns no document at all, so the complete order
111 is NOT rendered or written; the claim's "every other order in the same
run is still rendered and written successfully" fails on this input. -/
theorem claim_c4_counterexample :
    getField c4bad "buyer-email" = none ∧
    (FieldVal.str "111", [wA1]) ∈ c4orders ∧
    generate_amazon_xml c4orders "M" wSids2 =
      Except.error (PyErr.keyError "buyer-email") :=
  ⟨rfl, by decide, rfl⟩

/-- C4 amended: if a required field (buyer-email) is absent from an
order's first line, rendering raises a missing-field error that aborts XML
generation for the whole channel batch: the generator returns an error and
produces no document, so no order of that batch (the failing one or any
other) is rendered or written. -/
theorem claim_c4 (orders : List (FieldVal × List Rec)) (mid : String)
    (sids : Nat → String) (oid : FieldVal) (lines : List Rec) (r : Rec)
    (hmem : (oid, lines) ∈ orders) (hh : lines.head? = some r)
    (hm : getField r "buyer-email" = none) :
    ∃ e, generate_amazon_xml orders mid sids = Except.error e := by
  obtain ⟨e, he⟩ := generateMessages_err sids hh hm orders hmem 1
  exact ⟨e, by unfold generate_amazon_xml; rw [he]⟩

/-- C2: in the generated envelope the i-th Message (in document order)
carries MessageID text `toString i` counting from 1 and reports the order
whose id is the i-th key of the grouped batch; the grouped batch's keys
are the distinct order ids of the channel's record sequence in
first-appearance order, and the channel grouping's keys are the distinct
channels of the input in first-seen order. -/
theorem claim_c2 (l : List Rec) (cm : List (FieldVal × List Rec))
    (c : FieldVal) (recs : List Rec) (om : List (FieldVal × List Rec))
    (mid : String) (sids : Nat → String) (doc : Xml)
    (oidOf chOf : Rec → FieldVal)
    (hcm : groupByField "sales-channel" l = Except.ok cm)
    (hcmem : (c, recs) ∈ cm)
    (hom : groupByField "order-id" recs = Except.ok om)
    (hgen : generate_amazon_xml om mid sids = Except.ok doc)
    (hoid : ∀ r ∈ recs, getField r "order-id" = some (oidOf r))
    (hch : ∀ r ∈ l, getField r "sales-channel" = some (chOf r)) :
    (doc.children.filter (fun x => decide (x.tag = "Message"))).length =
      om.length ∧
    (∀ j, j < om.length → ∃ msg oid lines,
      (doc.children.filter (fun x => decide (x.tag = "Message")))[j]? =
        some msg ∧
      om[j]? = some (oid, lines) ∧
      textOfChild msg "MessageID" = some (toString (j + 1)) ∧
      ((childByTag msg "OrderReport").bind
        (fun orp => textOfChild orp "AmazonOrderID")) = some oid.pyStr) ∧
    om.map Prod.fst = dedupFS [] (recs.map oidOf) ∧
    cm.map Prod.fst = dedupFS [] (l.map chOf) := by
  unfold generate_amazon_xml at hgen
  cases hgm : generateMessages sids 1 om with
  | error e => rw [hgm] at hgen; exact absurd hgen (by simp)
  | ok msgs =>
    rw [hgm] at hgen
    simp only [Except.ok.injEq] at hgen
    subst hgen
    obtain ⟨hlen, hpt⟩ := generateMessages_spec sids om 1 msgs hgm
    have hall : ∀ x ∈ msgs, decide (x.tag = "Message") = true := by
      intro x hx
      obtain ⟨j, hj, hget⟩ := List.mem_iff_getElem.mp hx
      have hjo : j < om.length := by rw [← hlen]; exact hj
      obtain ⟨oid, lines, msg, _, hb, hc⟩ := hpt j hjo
      have hxm : msg = x := by
        rw [List.getElem?_eq_getElem hj, hget] at hb
        exact ((Option.some.injEq _ _).mp hb).symm
      subst hxm
      simp [(messageElement_facts hc).1]
    have hch1 : (buildEnvelope mid msgs).children =
        Xml.elem "Header" [] none [
          Xml.elem "DocumentVersion" [] (some "1.01") [],
          Xml.elem "MerchantIdentifier" [] (some mid) []] ::
        Xml.elem "MessageType" [] (some "OrderReport") [] :: msgs := rfl
    have hfilter : (buildEnvelope mid msgs).children.filter
        (fun x => decide (x.tag = "Message")) = msgs := by
      rw [hch1, List.filter_cons_of_neg (by simp [Xml.tag]),
        List.filter_cons_of_neg (by simp [Xml.tag])]
      exact List.filter_eq_self.mpr hall
    refine ⟨by rw [hfilter]; exact hlen, ?_, ?_, ?_⟩
    · intro j hj
      obtain ⟨oid, lines, msg, ha, hb, hc⟩ := hpt j hj
      obtain ⟨-, hmsgid, hordid⟩ := messageElement_facts hc
      refine ⟨msg, oid, lines, by rw [hfilter]; exact hb, ha, ?_, hordid⟩
      rw [Nat.add_comm j 1]
      exact hmsgid
    · have := groupByFieldAux_keys recs [] om hom hoid
      simpa using this
    · have := groupByFieldAux_keys l [] cm hcm hch
      simpa using this

/-- C9: rendering is deterministic up to the session ids: for a fixed
grouped batch and merchant id, two runs of the generator with different
session-id draws produce byte-identical compact XML once the
AmazonSessionID texts are erased. -/
theorem claim_c9 (orders : List (FieldVal × List Rec)) (mid : String)
    (sids1 sids2 : Nat → String) (doc1 doc2 : Xml)
    (h1 : generate_amazon_xml orders mid sids1 = Except.ok doc1)
    (h2 : generate_amazon_xml orders mid sids2 = Except.ok doc2) :
    tostring (eraseSession doc1) = tostring (eraseSession doc2) := by
  unfold generate_amazon_xml at h1 h2
  cases hg1 : generateMessages sids1 1 orders with
  | error e => rw [hg1] at h1; exact absurd h1 (by simp)
  | ok msgs1 =>
    rw [hg1] at h1
    simp only [Except.ok.injEq] at h1
    subst h1
    cases hg2 : generateMessages sids2 1 orders with
    | error e => rw [hg2] at h2; exact absurd h2 (by simp)
    | ok msgs2 =>
      rw [hg2] at h2
      simp only [Except.ok.injEq] at h2
      subst h2
      have he := generateMessages_erase sids1 sids2 orders 1 msgs1 msgs2 hg1 hg2
      congr 1
      rw [erase_buildEnvelope, erase_buildEnvelope, he]

/-- C5: for every line item, the generated Item node carries an ItemPrice
with exactly four Components in the fixed order Principal, Shipping, Tax,
ShippingTax whose Amount texts are exactly the line's item-price,
shipping-price, item-tax and shipping-tax strings, an ItemFees with
exactly one Commission Fee whose Amount text is the payment-method-fee
string, and every Amount carries a currency attribute equal to the line's
currency field. -/
theorem claim_c5 (item : Rec) (x : Xml) (ps ss ts sts fs cs : String)
    (h : itemElement item = Except.ok x)
    (hp : getField item "item-price" = some (FieldVal.str ps))
    (hs : getField item "shipping-price" = some (FieldVal.str ss))
    (ht : getField item "item-tax" = some (FieldVal.str ts))
    (hst : getField item "shipping-tax" = some (FieldVal.str sts))
    (hf : getField item "payment-method-fee" = some (FieldVal.str fs))
    (hc : getField item "currency" = some (FieldVal.str cs)) :
    ∃ ip fees,
      childByTag x "ItemPrice" = some ip ∧
      ip.children.map (fun comp => textOfChild comp "Type") =
        [some "Principal", some "Shipping", some "Tax", some "ShippingTax"] ∧
      ip.children.map (fun comp => textOfChild comp "Amount") =
        [some ps, some ss, some ts, some sts] ∧
      ip.children.map (fun comp => (childByTag comp "Amount").map Xml.attrs) =
        [some [("currency", cs)], some [("currency", cs)],
         some [("currency", cs)], some [("currency", cs)]] ∧
      childByTag x "ItemFees" = some fees ∧
      ∃ fe, fees.children = [fe] ∧
        textOfChild fe "Type" = some "Commission" ∧
        textOfChild fe "Amount" = some fs ∧
        (childByTag fe "Amount").map Xml.attrs = some [("currency", cs)] := by
  obtain ⟨oic, sku, title, qty, principal, cur, shipping, tax, shippingTax,
    fee, g1, g2, g3, g4, g5, g6, g7, g8, g9, g10, hx⟩ := itemElement_ok_shape h
  rw [g5] at hp
  injection hp with e1
  subst e1
  rw [g6] at hc
  injection hc with e2
  subst e2
  rw [g7] at hs
  injection hs with e3
  subst e3
  rw [g8] at ht
  injection ht with e4
  subst e4
  rw [g9] at hst
  injection hst with e5
  subst e5
  rw [g10] at hf
  injection hf with e6
  subst e6
  subst hx
  exact ⟨_, _, rfl, rfl, rfl, rfl, rfl, _, rfl, rfl, rfl, rfl⟩

/-- C6: for an order whose first line lacks the optional fields, the
rendered BuyerPhoneNumber and fulfillment PhoneNumber texts are the empty
string and the four flag texts are the lowercase string "false". -/
theorem claim_c6 (n : Nat) (oid : FieldVal) (sid : String)
    (lines : List Rec) (msg : Xml) (r : Rec)
    (h : messageElement n oid sid lines = Except.ok msg)
    (hh : lines.head? = some r)
    (h1 : getField r "buyer-phone-number" = none)
    (h2 : getField r "ship-phone-number" = none)
    (h3 : getField r "is-business-order" = none)
    (h4 : getField r "is-prime" = none)
    (h5 : getField r "is-premium-order" = none)
    (h6 : getField r "is-iba" = none) :
    ∃ orp, childByTag msg "OrderReport" = some orp ∧
      ((childByTag orp "BillingData").bind
        (fun bd => textOfChild bd "BuyerPhoneNumber")) = some "" ∧
      (((childByTag orp "FulfillmentData").bind
        (fun fd => childByTag fd "Address")).bind
          (fun a => textOfChild a "PhoneNumber")) = some "" ∧
      textOfChild orp "IsBusinessOrder" = some "false" ∧
      textOfChild orp "IsPrime" = some "false" ∧
      textOfChild orp "IsPremiumOrder" = some "false" ∧
      textOfChild orp "IsIba" = some "false" := by
  obtain ⟨order, f, items, ha, hb, hc, hx⟩ := messageElement_ok_shape h
  have hhead : headE lines = Except.ok r := by unfold headE; rw [hh]
  rw [hhead] at ha
  injection ha with e
  subst e
  obtain ⟨hbp, hsp, hbus, hpr, hpre, hiba⟩ := fieldsOf_ok_opt hb
  have hbp' : f.buyerPhone = "" := by rw [hbp]; unfold getTextD; rw [h1]
  have hsp' : f.shipPhone = "" := by rw [hsp]; unfold getTextD; rw [h2]
  have hbus' : f.isBusiness = "false" := by
    rw [hbus]; unfold flagText; rw [h3]
  have hpr' : f.isPrime = "false" := by rw [hpr]; unfold flagText; rw [h4]
  have hpre' : f.isPremium = "false" := by
    rw [hpre]; unfold flagText; rw [h5]
  have hiba' : f.isIba = "false" := by rw [hiba]; unfold flagText; rw [h6]
  subst hx
  exact ⟨_, rfl, congrArg some hbp', congrArg some hsp',
    congrArg some hbus', congrArg some hpr', congrArg some hpre',
    congrArg some hiba'⟩

/-- C10: when a boolean flag field is present on an order's first line,
its rendered text is the lowercased str() form of the stored value (so
"TRUE" renders as "true"), not the value passed through unchanged. -/
theorem claim_c10 (n : Nat) (oid : FieldVal) (sid : String)
    (lines : List Rec) (msg : Xml) (r : Rec)
    (h : messageElement n oid sid lines = Except.ok msg)
    (hh : lines.head? = some r) :
    ∃ orp, childByTag msg "OrderReport" = some orp ∧
      (∀ v, getField r "is-business-order" = some v →
        textOfChild orp "IsBusinessOrder" = some (pyLower v.pyStr)) ∧
      (∀ v, getField r "is-prime" = some v →
        textOfChild orp "IsPrime" = some (pyLower v.pyStr)) ∧
      (∀ v, getField r "is-premium-order" = some v →
        textOfChild orp "IsPremiumOrder" = some (pyLower v.pyStr)) ∧
      (∀ v, getField r "is-iba" = some v →
        textOfChild orp "IsIba" = some (pyLower v.pyStr)) := by
  obtain ⟨order, f, items, ha, hb, hc, hx⟩ := messageElement_ok_shape h
  have hhead : headE lines = Except.ok r := by unfold headE; rw [hh]
  rw [hhead] at ha
  injection ha with e
  subst e
  obtain ⟨hbp, hsp, hbus, hpr, hpre, hiba⟩ := fieldsOf_ok_opt hb
  subst hx
  refine ⟨_, rfl, ?_, ?_, ?_, ?_⟩
  · intro v hv
    have hv' : f.isBusiness = pyLower v.pyStr := by
      rw [hbus]; unfold flagText; rw [hv]
    exact congrArg some hv'
  · intro v hv
    have hv' : f.isPrime = pyLower v.pyStr := by
      rw [hpr]; unfold flagText; rw [hv]
    exact congrArg some hv'
  · intro v hv
    have hv' : f.isPremium = pyLower v.pyStr := by
      rw [hpre]; unfold flagText; rw [hv]
    exact congrArg some hv'
  · intro v hv
    have hv' : f.isIba = pyLower v.pyStr := by
      rw [hiba]; unfold flagText; rw [hv]
    exact congrArg some hv'

/-! Witness instances: each theorem with hypotheses applied at a closed
concrete input, the hypotheses discharged by evaluation. -/

/-- Witness for C1 at the two minimal records. -/
theorem claim_c1_witness :
    group_run [m1, m2] = Except.ok mG ∧
    ((mG.map (fun p => listTotal p.2)).sum = [m1, m2].length ∧
     (∀ c om, (c, om) ∈ mG → ∀ o vs, (o, vs) ∈ om → ∀ r,
       r ∈ vs ↔ r ∈ [m1, m2] ∧ getField r "sales-channel" = some c ∧
         getField r "order-id" = some o) ∧
     (∀ r ∈ [m1, m2], ∃ c om o vs, (c, om) ∈ mG ∧ (o, vs) ∈ om ∧ r ∈ vs)) :=
  ⟨rfl, claim_c1 [m1, m2] mG rfl⟩

/-- Witness for C8 at two records sharing order id 1 on channels A and
B. -/
theorem claim_c8_witness :
    group_run [m1, m2] = Except.ok mG ∧
    m1 ∈ [m1, m2] ∧ m2 ∈ [m1, m2] ∧
    getField m1 "sales-channel" = some (FieldVal.str "A") ∧
    getField m2 "sales-channel" = some (FieldVal.str "B") ∧
    FieldVal.str "A" ≠ FieldVal.str "B" ∧
    getField m1 "order-id" = some (FieldVal.str "1") ∧
    getField m2 "order-id" = some (FieldVal.str "1") ∧
    (∃ om1 vs1 om2 vs2,
      (FieldVal.str "A", om1) ∈ mG ∧ (FieldVal.str "B", om2) ∈ mG ∧
      (FieldVal.str "1", vs1) ∈ om1 ∧ (FieldVal.str "1", vs2) ∈ om2 ∧
      m1 ∈ vs1 ∧ m2 ∈ vs2 ∧ m2 ∉ vs1 ∧ m1 ∉ vs2) :=
  ⟨rfl, by decide, by decide, rfl, rfl, by decide, rfl, rfl,
   claim_c8 [m1, m2] mG m1 m2 (FieldVal.str "A") (FieldVal.str "B")
     (FieldVal.str "1") rfl (by decide) (by decide) rfl rfl (by decide)
     rfl rfl⟩

/-- Witness for C7 at a two-row sample file. -/
theorem claim_c7_witness :
    parse_txt_to_objects wFromiso wHeader wRows = Except.ok wOut ∧
    (wOut.length = wRows.length ∧
     ∀ j, j < wRows.length → ∃ row s dt,
       wRows[j]? = some row ∧
       getField (rowToDict wHeader row) "purchase-date" =
         some (FieldVal.str s) ∧
       wFromiso s = some dt ∧
       wOut[j]? =
         some (dictSet (rowToDict wHeader row) "order_date"
           (FieldVal.dt dt)) ∧
       (∀ k, k ≠ "order_date" →
         getField (dictSet (rowToDict wHeader row) "order_date"
           (FieldVal.dt dt)) k = getField (rowToDict wHeader row) k) ∧
       getField (dictSet (rowToDict wHeader row) "order_date"
         (FieldVal.dt dt)) "order_date" = some (FieldVal.dt dt)) :=
  ⟨rfl, claim_c7 wFromiso wHeader wRows wOut rfl⟩

/-- Witness for C2 at a one-channel two-order batch. -/
theorem claim_c2_witness :
    groupByField "sales-channel" [wA1, wA2] =
      Except.ok [(FieldVal.str "Amazon.com", [wA1, wA2])] ∧
    (FieldVal.str "Amazon.com", [wA1, wA2]) ∈
      [(FieldVal.str "Amazon.com", [wA1, wA2])] ∧
    groupByField "order-id" [wA1, wA2] = Except.ok wOrders1 ∧
    generate_amazon_xml wOrders1 "M" wSids1 = Except.ok wDoc1 ∧
    (∀ r ∈ [wA1, wA2], getField r "order-id" = some (wOidOf r)) ∧
    (∀ r ∈ [wA1, wA2], getField r "sales-channel" = some (wChOf r)) ∧
    ((wDoc1.children.filter (fun x => decide (x.tag = "Message"))).length =
      wOrders1.length ∧
     (∀ j, j < wOrders1.length → ∃ msg oid lines,
       (wDoc1.children.filter (fun x => decide (x.tag = "Message")))[j]? =
         some msg ∧
       wOrders1[j]? = some (oid, lines) ∧
       textOfChild msg "MessageID" = some (toString (j + 1)) ∧
       ((childByTag msg "OrderReport").bind
         (fun orp => textOfChild orp "AmazonOrderID")) = some oid.pyStr) ∧
     wOrders1.map Prod.fst = dedupFS [] ([wA1, wA2].map wOidOf) ∧
     [(FieldVal.str "Amazon.com", [wA1, wA2])].map Prod.fst =
       dedupFS [] ([wA1, wA2].map wChOf)) :=
  ⟨rfl, List.mem_cons_self _ _, rfl, rfl, by decide, by decide,
   claim_c2 [wA1, wA2] [(FieldVal.str "Amazon.com", [wA1, wA2])]
     (FieldVal.str "Amazon.com") [wA1, wA2] wOrders1 "M" wSids1 wDoc1
     wOidOf wChOf rfl (List.mem_cons_self _ _) rfl rfl (by decide)
     (by decide)⟩

/-- Witness for C4 (amended) at the batch containing the record lacking
buyer-email. -/
theorem claim_c4_witness :
    (FieldVal.str "333", [c4bad]) ∈ c4orders ∧
    [c4bad].head? = some c4bad ∧
    getField c4bad "buyer-email" = none ∧
    (∃ e, generate_amazon_xml c4orders "M" wSids2 = Except.error e) :=
  ⟨by decide, rfl, rfl,
   claim_c4 c4orders "M" wSids2 (FieldVal.str "333") [c4bad] c4bad
     (by decide) rfl rfl⟩

/-- Witness for C9 at the sample batch with two distinct session
sources. -/
theorem claim_c9_witness :
    generate_amazon_xml wOrders1 "M" wSids1 = Except.ok wDoc1 ∧
    generate_amazon_xml wOrders1 "M" wSids2 = Except.ok wDoc2 ∧
    tostring (eraseSession wDoc1) = tostring (eraseSession wDoc2) :=
  ⟨rfl, rfl, claim_c9 wOrders1 "M" wSids1 wSids2 wDoc1 wDoc2 rfl rfl⟩

/-- Witness for C5 at the sample line item. -/
theorem claim_c5_witness :
    itemElement wA1 = Except.ok wItemX ∧
    getField wA1 "item-price" = some (FieldVal.str "19.99") ∧
    getField wA1 "shipping-price" = some (FieldVal.str "3.99") ∧
    getField wA1 "item-tax" = some (FieldVal.str "1.99") ∧
    getField wA1 "shipping-tax" = some (FieldVal.str "0.50") ∧
    getField wA1 "payment-method-fee" = some (FieldVal.str "0.30") ∧
    getField wA1 "currency" = some (FieldVal.str "EUR") ∧
    (∃ ip fees,
      childByTag wItemX "ItemPrice" = some ip ∧
      ip.children.map (fun comp => textOfChild comp "Type") =
        [some "Principal", some "Shipping", some "Tax", some "ShippingTax"] ∧
      ip.children.map (fun comp => textOfChild comp "Amount") =
        [some "19.99", some "3.99", some "1.99", some "0.50"] ∧
      ip.children.map (fun comp => (childByTag comp "Amount").map Xml.attrs) =
        [some [("currency", "EUR")], some [("currency", "EUR")],
         some [("currency", "EUR")], some [("currency", "EUR")]] ∧
      childByTag wItemX "ItemFees" = some fees ∧
      ∃ fe, fees.children = [fe] ∧
        textOfChild fe "Type" = some "Commission" ∧
        textOfChild fe "Amount" = some "0.30" ∧
        (childByTag fe "Amount").map Xml.attrs = some [("currency", "EUR")]) :=
  ⟨rfl, rfl, rfl, rfl, rfl, rfl, rfl,
   claim_c5 wA1 wItemX "19.99" "3.99" "1.99" "0.50" "0.30" "EUR"
     rfl rfl rfl rfl rfl rfl rfl⟩

/-- Witness for C6 at the sample order whose first line lacks every
optional field. -/
theorem claim_c6_witness :
    messageElement 1 (FieldVal.str "111") "S" [wA1] = Except.ok wMsg ∧
    [wA1].head? = some wA1 ∧
    getField wA1 "buyer-phone-number" = none ∧
    getField wA1 "ship-phone-number" = none ∧
    getField wA1 "is-business-order" = none ∧
    getField wA1 "is-prime" = none ∧
    getField wA1 "is-premium-order" = none ∧
    getField wA1 "is-iba" = none ∧
    (∃ orp, childByTag wMsg "OrderReport" = some orp ∧
      ((childByTag orp "BillingData").bind
        (fun bd => textOfChild bd "BuyerPhoneNumber")) = some "" ∧
      (((childByTag orp "FulfillmentData").bind
        (fun fd => childByTag fd "Address")).bind
          (fun a => textOfChild a "PhoneNumber")) = some "" ∧
      textOfChild orp "IsBusinessOrder" = some "false" ∧
      textOfChild orp "IsPrime" = some "false" ∧
      textOfChild orp "IsPremiumOrder" = some "false" ∧
      textOfChild orp "IsIba" = some "false") :=
  ⟨rfl, rfl, rfl, rfl, rfl, rfl, rfl, rfl,
   claim_c6 1 (FieldVal.str "111") "S" [wA1] wMsg wA1 rfl rfl
     rfl rfl rfl rfl rfl rfl⟩

/-- Witness for C10 at the sample order whose first line carries all four
flags in mixed case. -/
theorem claim_c10_witness :
    messageElement 1 (FieldVal.str "111") "S" [c10rec] = Except.ok wMsg10 ∧
    [c10rec].head? = some c10rec ∧
    (∃ orp, childByTag wMsg10 "OrderReport" = some orp ∧
      (∀ v, getField c10rec "is-business-order" = some v →
        textOfChild orp "IsBusinessOrder" = some (pyLower v.pyStr)) ∧
      (∀ v, getField c10rec "is-prime" = some v →
        textOfChild orp "IsPrime" = some (pyLower v.pyStr)) ∧
      (∀ v, getField c10rec "is-premium-order" = some v →
        textOfChild orp "IsPremiumOrder" = some (pyLower v.pyStr)) ∧
      (∀ v, getField c10rec "is-iba" = some v →
        textOfChild orp "IsIba" = some (pyLower v.pyStr))) :=
  ⟨rfl, rfl,
   claim_c10 1 (FieldVal.str "111") "S" [c10rec] wMsg10 c10rec rfl rfl⟩

end AmazonExporter
